import Mathlib

/-!
Shallow embedding of the retrieval-and-ranking engine of this repository
(`src/chat.js`).  The file `src/chat.js` contains several near-duplicate
variants of the engine; the claims refer to the first variant (lines 1-970:
`KnowledgeBase`, `PatternMatcher`, `ContextBuilder`, `ChatBot`, `QueryCache`)
and, for the context-assembly deduplication rule, to the second variant's
`ContextBuilder` (lines 1310-1390) together with the second variant's
`KnowledgeBase.getRelatedQuestions`.

Numbers are modelled as real numbers (`ℝ`); JavaScript strings as Lean
`String`.  JavaScript regular-expression tests are compiled, pattern by
pattern, into explicit word-boundary / prefix matchers over the character
list of the string.  `Array.prototype.sort` (V8) is stable and the source
comparators are induced by lexicographic keys, so sorting is modelled as a
stable insertion sort by the corresponding key.
-/

namespace Chat

/-! ### JavaScript string primitives -/

/-- Word character in the sense of the regex class `\w`: `[A-Za-z0-9_]`. -/
def isWordChar (c : Char) : Bool :=
  c.isAlphanum || c = '_'

/-- Whitespace in the sense of the regex class `\s` (ASCII part). -/
def isSpaceChar (c : Char) : Bool :=
  c = ' ' || c = '\t' || c = '\n' || c = '\r' || c = '\x0b' || c = '\x0c'

/-- Model of `String.prototype.toLowerCase` (character-wise `toLower`). -/
def jsToLower (s : String) : String :=
  String.mk (s.data.map Char.toLower)

/-- Model of `String.prototype.toUpperCase` (character-wise `toUpper`). -/
def jsToUpper (s : String) : String :=
  String.mk (s.data.map Char.toUpper)

/-- Model of `String.prototype.trim`. -/
def jsTrim (s : String) : String :=
  String.mk (((s.data.dropWhile isSpaceChar).reverse.dropWhile isSpaceChar).reverse)

/-- Containment of `needle` in `hay` as a contiguous run, over char lists;
model of `String.prototype.includes`. -/
def listContains : List Char → List Char → Bool
  | hay, needle =>
    if needle.isPrefixOf hay then true
    else
      match hay with
      | [] => false
      | _ :: t => listContains t needle

/-- Model of `hay.includes(needle)`. -/
def strContains (hay needle : String) : Bool :=
  listContains hay.data needle.data

/-- JavaScript `a || b` for an optional string `a` (empty string is falsy). -/
def jsOrS (a : Option String) (b : String) : String :=
  match a with
  | some s => if s = "" then b else s
  | none => b

/-- JavaScript `a || b` where both operands are optional strings. -/
def jsOrOpt (a b : Option String) : Option String :=
  match a with
  | some s => if s = "" then b else some s
  | none => b

/-- Replace the first occurrence of `'_'` by `' '`;
model of `s.replace('_', ' ')` (string-pattern `replace` only
replaces the first occurrence). -/
def replaceFirstUnderscore : List Char → List Char
  | [] => []
  | c :: rest => if c = '_' then ' ' :: rest else c :: replaceFirstUnderscore rest

/-! ### Compiled regular-expression matchers

Each regex of the source is compiled into an explicit matcher.  A `\b`
adjacent to a literal that starts/ends with a word character holds exactly
when the neighbouring input character (if any) is not a word character. -/

/-- The phrase `p` occurs at position `i` of `s` with word boundaries on both
sides (for phrases that begin and end with word characters). -/
def matchPhraseAt (s : List Char) (i : Nat) (p : List Char) : Bool :=
  p.isPrefixOf (s.drop i) &&
  (i = 0 || !isWordChar (s.getD (i - 1) ' ')) &&
  (s.length ≤ i + p.length || !isWordChar (s.getD (i + p.length) ' '))

/-- Model of `/\bp\b/.test(s)` for a literal phrase `p`. -/
def hasWordPhrase (p : String) (s : String) : Bool :=
  (List.range (s.length + 1)).any fun i => matchPhraseAt s.data i p.data

/-- Model of `/\b(p₁|p₂|…)\b/.test(s)`. -/
def hasAnyWordPhrase (ps : List String) (s : String) : Bool :=
  ps.any fun p => hasWordPhrase p s

/-- Word boundary immediately before position `i` of `s`. -/
def leftBoundaryAt (s : List Char) (i : Nat) : Bool :=
  i = 0 || !isWordChar (s.getD (i - 1) ' ')

/-- Word boundary immediately after the prefix of length `i` of `s`. -/
def rightBoundaryAt (s : List Char) (i : Nat) : Bool :=
  s.length ≤ i || !isWordChar (s.getD i ' ')

/-- The head of `s` (if any) is not a word character. -/
def boundaryHead (s : List Char) : Bool :=
  match s with
  | [] => true
  | c :: _ => !isWordChar c

/-- A `'?'` occurs in `s` before any newline; model of the tail `.*\?` of an
unanchored regex (`.` does not match line terminators). -/
def qmarkBeforeNewline : List Char → Bool
  | [] => false
  | c :: rest =>
    if c = '?' then true
    else if c = '\n' || c = '\r' then false
    else qmarkBeforeNewline rest

/-- No line terminator among the first `n` characters of `s`. -/
def noNewlineWithin (s : List Char) (n : Nat) : Bool :=
  (s.take n).all fun c => !(c = '\n' || c = '\r')

/-- Model of `/a.*b/.test(s)` for literal substrings `a`, `b`:
an occurrence of `a` followed (on the same line) by an occurrence of `b`. -/
def containsThen (s : List Char) (a b : List Char) : Bool :=
  (List.range (s.length + 1)).any fun i =>
    a.isPrefixOf (s.drop i) &&
    ((List.range (s.length + 1)).any fun j =>
      i + a.length ≤ j && b.isPrefixOf (s.drop j) &&
      noNewlineWithin (s.drop (i + a.length)) (j - (i + a.length)))

/-- Model of `/a.*b.*c/.test(s)` for literal substrings: occurrences of `a`,
`b`, `c` in order with no line terminator inside either gap. -/
def containsThen3 (s : List Char) (a b c : List Char) : Bool :=
  (List.range (s.length + 1)).any fun i =>
    a.isPrefixOf (s.drop i) &&
    ((List.range (s.length + 1)).any fun j =>
      i + a.length ≤ j && b.isPrefixOf (s.drop j) &&
      noNewlineWithin (s.drop (i + a.length)) (j - (i + a.length)) &&
      ((List.range (s.length + 1)).any fun k =>
        j + b.length ≤ k && c.isPrefixOf (s.drop k) &&
        noNewlineWithin (s.drop (j + b.length)) (k - (j + b.length))))

/-- Model of `/\ba.*b\b/.test(s)`: `a` with a left word boundary, then later
(on the same line) `b` with a right word boundary. -/
def wordGapWord (s : List Char) (a b : List Char) : Bool :=
  (List.range (s.length + 1)).any fun i =>
    leftBoundaryAt s i && a.isPrefixOf (s.drop i) &&
    ((List.range (s.length + 1)).any fun j =>
      i + a.length ≤ j && b.isPrefixOf (s.drop j) && rightBoundaryAt s (j + b.length) &&
      noNewlineWithin (s.drop (i + a.length)) (j - (i + a.length)))

/-- Consume `\s+`: at least one whitespace character at the head. -/
def dropSpaces1 (s : List Char) : Option (List Char) :=
  match s with
  | c :: rest => if isSpaceChar c then some (rest.dropWhile isSpaceChar) else none
  | [] => none

/-- Literal words separated by `\s+`, starting exactly at the head of `s`;
returns the remaining suffix on success.  (Greedy whitespace consumption is
faithful because every following word starts with a non-space character.) -/
def matchWordsGap : List Char → List String → Option (List Char)
  | s, [] => some s
  | s, w :: ws =>
    if w.data.isPrefixOf s then
      let rest := s.drop w.length
      match ws with
      | [] => some rest
      | _ =>
        match dropSpaces1 rest with
        | some rest2 => matchWordsGap rest2 ws
        | none => none
    else none

/-- Unanchored search for literal words separated by `\s+`. -/
def containsWordsGap (s : List Char) (ws : List String) : Bool :=
  (List.range (s.length + 1)).any fun i => (matchWordsGap (s.drop i) ws).isSome

/-! ### Configuration (`CONFIG`, first variant, lines 9-23, default values:
no environment overrides). -/

def SIMILARITY_THRESHOLD : ℝ := 0.4
def MAX_CONTEXT_ITEMS : Nat := 8
def CACHE_TTL : Nat := 5 * 60 * 1000
def KEYWORD_BOOST : ℝ := 0.1
def INTENT_BOOST : ℝ := 0.15
def CATEGORY_BOOST : ℝ := 0.08
def PROCEDURAL_BOOST : ℝ := 0.2
def MAX_HISTORY_LENGTH : Nat := 5

/-! ### Data model (knowledge-source item format, section 6 of the spec) -/

/-- The optional `metadata` object of a knowledge item. -/
structure Metadata where
  keywords : Option (List String) := none
  intent : Option String := none
  priority : Option String := none
  related_questions : Option (List Nat) := none
  context : Option String := none

/-- One knowledge item as read from the knowledge source.  Absent JSON
fields are `none`. -/
structure Item where
  Q : Option String := none
  question : Option String := none
  A : Option String := none
  answer : Option String := none
  text : Option String := none
  category : Option String := none
  sub_category : Option String := none
  metadata : Option Metadata := none
  embedding : Option (List ℝ) := none

noncomputable instance : DecidableEq Metadata := fun _ _ => Classical.dec _

noncomputable instance : DecidableEq Item := fun _ _ => Classical.dec _

/-- The boost components computed by `calculateBoosts` (lines 303-354). -/
structure Boosts where
  keyword : ℝ := 0
  intent : ℝ := 0
  category : ℝ := 0
  procedural : ℝ := 0
  priority : ℝ := 0
  total : ℝ := 0

/-- One element of the `scores` array of `findTopMatches` (lines 155-171).
In the `baseScore ≤ 0` branch the JS object carries no `baseScore` field and
an empty `boosts` object; both are modelled as `none`. -/
structure ScoredMatch where
  item : Item
  score : ℝ
  baseScore : Option ℝ := none
  boosts : Option Boosts := none

/-- State of the first variant's `KnowledgeBase` (lines 43-53). -/
structure KnowledgeBase where
  items : List Item := []
  magnitudes : List ℝ := []
  keywordIndex : List (String × List Nat) := []
  intentIndex : List (String × List Nat) := []
  categoryIndex : List (String × List Nat) := []
  subCategoryIndex : List (String × List Nat) := []
  isLoaded : Bool := false

/-! ### Vector math (lines 128-145) -/

/-- Sum of squares, the `reduce` inside `calculateMagnitude`. -/
def sumSq (v : List ℝ) : ℝ :=
  (v.map fun x => x * x).sum

/-- Model of `calculateMagnitude` (line 128): `Math.sqrt` of the sum of
squares. -/
noncomputable def calculateMagnitude (v : List ℝ) : ℝ :=
  Real.sqrt (sumSq v)

/-- Model of `dotProduct` (line 132); after the length guard of
`cosineSimilarity` both lists have the same length, for which the `reduce`
over `a` with indexing into `b` is the sum of pointwise products. -/
def dotProduct (a b : List ℝ) : ℝ :=
  (List.zipWith (fun x y => x * y) a b).sum

/-- Model of `cosineSimilarity` (lines 136-145).  An absent vector
(JS `null`/`undefined`, falsy) is `none`.  The JS expression
`(queryMagnitude * itemMagnitude) || 1e-10` substitutes `1e-10` exactly when
the product is zero. -/
noncomputable def cosineSimilarity
    (queryVector itemVector : Option (List ℝ)) (itemMagnitude : ℝ) : ℝ :=
  match queryVector, itemVector with
  | some q, some v =>
    if q.length ≠ v.length then -1
    else
      let queryMagnitude := calculateMagnitude q
      let denom := queryMagnitude * itemMagnitude
      dotProduct q v / (if denom = 0 then 1e-10 else denom)
  | _, _ => -1

/-- The magnitude an item contributes to the `magnitudes` array computed by
`load` (lines 66-68). -/
noncomputable def itemMagnitude (item : Item) : ℝ :=
  match item.embedding with
  | some emb => calculateMagnitude emb
  | none => 0

/-! ### Query analyzer (first variant, lines 179-301) -/

/-- Model of `extractQueryWords` (lines 180-185): lower-case, replace every
character outside `\w`/`\s` by a space, split on whitespace, keep tokens of
length `> 2`.  (`split(/\s+/)` can produce empty tokens at the boundaries;
they are removed by the length filter, so splitting at every whitespace
character is equivalent.) -/
def extractQueryWords (query : String) : List String :=
  (((((jsToLower query).data.map fun c =>
        if isWordChar c || isSpaceChar c then c else ' ').splitOnP
      fun c => isSpaceChar c).map fun l => String.mk l).filter
    fun w => 2 < w.length)

/-- The ordered intent rules of `detectIntent` (lines 188-199) with the
`intentMapping` (lines 203-213) already applied: the first pattern that
matches the lower-cased query wins. -/
def intentPatternsA : List (List String × String) :=
  [(["how to", "steps", "process", "procedure", "guide", "instructions",
     "set up", "arrange", "organize"], "explain_process"),
   (["bill", "billing", "invoice", "cost", "price", "fee", "charge",
     "payment"], "payment_info"),
   (["contact", "phone", "email", "speak", "call", "reach", "touch"],
    "request_contact"),
   (["service", "what", "how", "do you", "can you", "offer"],
    "service_inquiry"),
   (["where", "location", "address", "based", "office"], "location_info"),
   (["hours", "open", "closed", "time", "when"], "operating_hours"),
   (["ship", "shipping", "freight", "delivery", "transport"],
    "shipping_inquiry"),
   (["storage", "warehouse", "store", "keep"], "storage_inquiry"),
   (["customs", "clearance", "import", "export", "brokerage"],
    "customs_inquiry")]

/-- Model of `detectIntent` (lines 186-230): first matching rule wins,
`null` when none matches. -/
def detectIntent (query : String) : Option String :=
  let lowerQuery := jsToLower query
  (intentPatternsA.find? fun pr => hasAnyWordPhrase pr.1 lowerQuery).map
    fun pr => pr.2

/-- Model of `isProceduralQuery` (lines 296-299). -/
def isProceduralQuery (query : String) : Bool :=
  hasAnyWordPhrase
    ["how to", "steps", "process", "procedure", "guide", "instructions",
     "set up", "arrange", "organize"] (jsToLower query)

/-- Model of `isProceduralContent` (lines 356-359); the `/i` flag is
modelled by lower-casing the answer first. -/
def isProceduralContent (item : Item) : Bool :=
  hasAnyWordPhrase
    ["step", "first", "next", "then", "finally", "process", "procedure",
     "guide", "instructions"]
    (jsToLower (jsOrS item.A (jsOrS item.answer "")))

/-! ### Scorer (`calculateBoosts`, lines 303-354) -/

/-- One metadata keyword matches the query words when it is a substring of
some query token or that token is a substring of the (lower-cased) keyword
(lines 318-323). -/
def keywordMatches (queryWords : List String) (keyword : String) : Bool :=
  queryWords.any fun word =>
    strContains word (jsToLower keyword) || strContains (jsToLower keyword) word

/-- The keyword component of `calculateBoosts` (lines 317-325). -/
noncomputable def keywordBoost (metadata : Metadata) (queryWords : List String) : ℝ :=
  match metadata.keywords with
  | some kws =>
    min 0.3 (((kws.filter fun kw => keywordMatches queryWords kw).length : ℝ)
      * KEYWORD_BOOST)
  | none => 0

/-- The intent component of `calculateBoosts` (lines 327-330). -/
def intentBoost (metadata : Metadata) (detectedIntent : Option String) : ℝ :=
  match detectedIntent with
  | some di => if metadata.intent = some di then INTENT_BOOST else 0
  | none => 0

/-- The category component of `calculateBoosts` (lines 332-338). -/
def categoryBoost (item : Item) (isProcedural : Bool) : ℝ :=
  if isProcedural &&
      (strContains (jsToLower (jsOrS item.category "")) "process" ||
       strContains (jsToLower (jsOrS item.category "")) "procedure" ||
       strContains (jsToLower (jsOrS item.sub_category "")) "process" ||
       strContains (jsToLower (jsOrS item.sub_category "")) "procedure") then
    CATEGORY_BOOST
  else 0

/-- The procedural-content component of `calculateBoosts` (lines 340-343). -/
def proceduralBoost (item : Item) (isProcedural : Bool) : ℝ :=
  if isProcedural && isProceduralContent item then PROCEDURAL_BOOST else 0

/-- The priority component of `calculateBoosts` (lines 345-349). -/
def priorityBoost (metadata : Metadata) : ℝ :=
  match metadata.priority with
  | some p =>
    if p = "high" then 0.1
    else if p = "medium" then 0.05
    else if p = "low" then 0.02
    else 0
  | none => 0

/-- Model of `calculateBoosts` (lines 303-354).  The unused `itemIndex`
parameter of the source is omitted. -/
noncomputable def calculateBoosts (item : Item) (queryWords : List String)
    (detectedIntent : Option String) (isProcedural : Bool) : Boosts :=
  let metadata := item.metadata.getD {}
  { keyword := keywordBoost metadata queryWords,
    intent := intentBoost metadata detectedIntent,
    category := categoryBoost item isProcedural,
    procedural := proceduralBoost item isProcedural,
    priority := priorityBoost metadata,
    total := keywordBoost metadata queryWords + intentBoost metadata detectedIntent +
      categoryBoost item isProcedural + proceduralBoost item isProcedural +
      priorityBoost metadata }

/-! ### Ranker (`findTopMatches`, lines 147-177) -/

/-- The `baseScore` local of the `scores` map (lines 156-158). -/
noncomputable def baseScoreOf (kb : KnowledgeBase) (queryEmbedding : List ℝ)
    (item : Item) (index : Nat) : ℝ :=
  match item.embedding with
  | some emb =>
    cosineSimilarity (some queryEmbedding) (some emb) (kb.magnitudes.getD index 0)
  | none => -1

/-- One element of the `scores` array (lines 155-171). -/
noncomputable def scoreEntry (kb : KnowledgeBase) (queryEmbedding : List ℝ)
    (queryWords : List String) (detectedIntent : Option String)
    (isProcedural : Bool) (item : Item) (index : Nat) : ScoredMatch :=
  let baseScore := baseScoreOf kb queryEmbedding item index
  if baseScore ≤ 0 then { item := item, score := baseScore }
  else
    let boosts := calculateBoosts item queryWords detectedIntent isProcedural
    { item := item, score := min 1 (baseScore + boosts.total),
      baseScore := some baseScore, boosts := some boosts }

/-- The `scores` array of `findTopMatches` (lines 155-171). -/
noncomputable def computeScores (kb : KnowledgeBase) (queryEmbedding : List ℝ)
    (query : String) : List ScoredMatch :=
  kb.items.mapIdx fun index item =>
    scoreEntry kb queryEmbedding (extractQueryWords query) (detectIntent query)
      (isProceduralQuery query) item index

/-- Stable insertion (descending by `key`) used to model V8's stable
`Array.prototype.sort` under a comparator induced by a linear-order key. -/
def insertByKeyDesc {α : Type} {κ : Type} [LinearOrder κ] (key : α → κ)
    (x : α) : List α → List α
  | [] => [x]
  | y :: ys => if key y ≤ key x then x :: y :: ys else y :: insertByKeyDesc key x ys

/-- Stable sort, descending by `key`. -/
def sortByKeyDesc {α : Type} {κ : Type} [LinearOrder κ] (key : α → κ) :
    List α → List α
  | [] => []
  | x :: xs => insertByKeyDesc key x (sortByKeyDesc key xs)

/-- Model of `.sort((a, b) => b.score - a.score)` (line 174). -/
noncomputable def sortByScoreDesc (l : List ScoredMatch) : List ScoredMatch :=
  sortByKeyDesc (fun m => m.score) l

/-- Model of `findTopMatches` (lines 147-177): score every item, sort by
score descending, truncate to the first `k`, then drop everything at or
below the similarity threshold. -/
noncomputable def findTopMatches (kb : KnowledgeBase) (queryEmbedding : List ℝ)
    (query : String) (k : Nat) : List ScoredMatch :=
  if kb.isLoaded then
    (((sortByScoreDesc (computeScores kb queryEmbedding query)).take k).filter
      fun m => decide (SIMILARITY_THRESHOLD < m.score))
  else []

/-! ### Knowledge store: `load` and the metadata indexes (lines 54-126) -/

/-- Append `i` to the bucket of `key`, creating the bucket if absent;
model of the `Map`-based index-building idiom (lines 96-124). -/
def indexAdd (m : List (String × List Nat)) (key : String) (i : Nat) :
    List (String × List Nat) :=
  if (m.find? fun kv => kv.1 == key).isSome then
    m.map fun kv => if kv.1 == key then (kv.1, kv.2 ++ [i]) else kv
  else m ++ [(key, [i])]

/-- Per-item step of `buildMetadataIndexes` (lines 88-125): each of the
four indexes is extended; the remaining knowledge-base fields are
untouched. -/
def indexStep (kb : KnowledgeBase) (i : Nat) (item : Item) : KnowledgeBase :=
  let metadata := item.metadata.getD {}
  let category := jsOrS item.category "uncategorized"
  let subCategory := jsOrS item.sub_category "general"
  { kb with
    keywordIndex :=
      match metadata.keywords with
      | some kws =>
        kws.foldl (fun idx kw => indexAdd idx (jsTrim (jsToLower kw)) i)
          kb.keywordIndex
      | none => kb.keywordIndex,
    intentIndex :=
      match metadata.intent with
      | some it =>
        if it = "" then kb.intentIndex
        else indexAdd kb.intentIndex (jsTrim (jsToLower it)) i
      | none => kb.intentIndex,
    categoryIndex := indexAdd kb.categoryIndex (jsTrim (jsToLower category)) i,
    subCategoryIndex :=
      indexAdd kb.subCategoryIndex (jsTrim (jsToLower subCategory)) i }

/-- Model of `buildMetadataIndexes` (lines 82-126): clear all four indexes,
then rebuild them in item order. -/
def buildMetadataIndexes (kb : KnowledgeBase) : KnowledgeBase :=
  let cleared := { kb with keywordIndex := [], intentIndex := [],
                           categoryIndex := [], subCategoryIndex := [] }
  cleared.items.enum.foldl (fun acc p => indexStep acc p.1 p.2) cleared

/-- The outcome of reading the knowledge source, as seen by `load`
(lines 54-80): a missing file, a file whose contents fail to parse, or a
parsed array of items. -/
inductive LoadSource where
  | missing
  | corrupt
  | valid (items : List Item)

/-- Model of `load` (lines 54-80).  Both failure paths (missing file and
read/parse error) empty `items`/`magnitudes` and clear `isLoaded` without
raising; the success path computes magnitudes, rebuilds the indexes and
sets `isLoaded`.  Totality of this function is the model of "never raises
to the caller". -/
noncomputable def load (kb : KnowledgeBase) (src : LoadSource) : KnowledgeBase :=
  match src with
  | .missing => { kb with items := [], magnitudes := [], isLoaded := false }
  | .corrupt => { kb with items := [], magnitudes := [], isLoaded := false }
  | .valid items =>
    let magnitudes := items.map itemMagnitude
    buildMetadataIndexes
      { kb with items := items, magnitudes := magnitudes, isLoaded := true }

/-- Add to a JS `Set` of items; the model identifies items by value. -/
noncomputable def setAddItem (s : List Item) (x : Item) : List Item :=
  if x ∈ s then s else s ++ [x]

/-- Bucket lookup in an index (JS `Map.get` after a `has` check). -/
def indexGet (m : List (String × List Nat)) (key : String) : Option (List Nat) :=
  (m.find? fun kv => kv.1 == key).map fun kv => kv.2

/-- Model of `getRelatedContent` (lines 361-400). -/
noncomputable def getRelatedContent (kb : KnowledgeBase) (mainMatchIndex : Nat)
    (maxRelated : Nat) : List Item :=
  match kb.items[mainMatchIndex]? with
  | none => []
  | some mainItem =>
    let metadata := mainItem.metadata.getD {}
    let s1 : List Item :=
      match metadata.related_questions with
      | some rqs =>
        (rqs.take maxRelated).foldl (fun acc idx =>
          if idx < kb.items.length then setAddItem acc (kb.items.getD idx {})
          else acc) []
      | none => []
    let s2 : List Item :=
      match mainItem.category with
      | some category =>
        if category = "" then s1
        else
          match indexGet kb.categoryIndex (jsToLower category) with
          | some categoryItems =>
            (categoryItems.take 2).foldl (fun acc idx =>
              if idx ≠ mainMatchIndex then setAddItem acc (kb.items.getD idx {})
              else acc) s1
          | none => s1
      | none => s1
    let s3 : List Item :=
      match mainItem.sub_category with
      | some subCategory =>
        if subCategory = "" then s2
        else
          match indexGet kb.subCategoryIndex (jsToLower subCategory) with
          | some subCategoryItems =>
            (subCategoryItems.take 2).foldl (fun acc idx =>
              if idx ≠ mainMatchIndex then setAddItem acc (kb.items.getD idx {})
              else acc) s2
          | none => s2
      | none => s2
    s3.take maxRelated

/-! ### `PatternMatcher` (first variant, lines 404-455): the anchored
greeting regexes and the procedural / contact tests, compiled pattern by
pattern.  All tests carry the `/i` flag, modelled by matching against the
lower-cased input. -/

/-- Pattern 1 without the `good\s…` branch:
`^(hi|hello|hey|howdy|greetings|yo|sup|what's up|hi there|hello there)\b`. -/
def greetP1Words (m : List Char) : Bool :=
  ["hi", "hello", "hey", "howdy", "greetings", "yo", "sup", "what's up",
   "hi there", "hello there"].any fun p =>
    p.data.isPrefixOf m && rightBoundaryAt m p.length

/-- The `good\s(morning|afternoon|evening)` branch of pattern 1. -/
def greetP1Good (m : List Char) : Bool :=
  "good".data.isPrefixOf m && isSpaceChar (m.getD 4 'x') &&
  (["morning", "afternoon", "evening"].any fun w =>
    w.data.isPrefixOf (m.drop 5) && rightBoundaryAt m (5 + w.length))

/-- Pattern 2: `^\b(hi|hello|hey)\s+(there|chatbot|bot|assistant)\b`
(the leading `\b` is redundant before a word character). -/
def greetP2 (m : List Char) : Bool :=
  ["hi", "hello", "hey"].any fun g =>
    g.data.isPrefixOf m &&
    (match dropSpaces1 (m.drop g.length) with
     | some rest =>
       ["there", "chatbot", "bot", "assistant"].any fun w =>
         w.data.isPrefixOf rest && boundaryHead (rest.drop w.length)
     | none => false)

/-- Pattern 3: `^thanks?(\s+(you|a lot|so much))?$`. -/
def greetP3 (m : List Char) : Bool :=
  (m = "thank".data || m = "thanks".data) ||
  (["thanks", "thank"].any fun base =>
    base.data.isPrefixOf m &&
    (match dropSpaces1 (m.drop base.length) with
     | some rest =>
       ["you", "a lot", "so much"].any fun w => rest = w.data
     | none => false))

/-- Pattern 4: `^thank\s+(you|u)\b`. -/
def greetP4 (m : List Char) : Bool :=
  "thank".data.isPrefixOf m &&
  (match dropSpaces1 (m.drop 5) with
   | some rest =>
     ["you", "u"].any fun w =>
       w.data.isPrefixOf rest && boundaryHead (rest.drop w.length)
   | none => false)

/-- Pattern 5: `^(goodbye|bye|see ya|see you|farewell|cheers)\b`. -/
def greetP5 (m : List Char) : Bool :=
  ["goodbye", "bye", "see ya", "see you", "farewell", "cheers"].any fun p =>
    p.data.isPrefixOf m && rightBoundaryAt m p.length

/-- Optional trailing `\??$`: the remainder is empty or a single `'?'`. -/
def optQmarkEnd (s : List Char) : Bool :=
  s = [] || s = ['?']

/-- Pattern 6: `^how\s+are\s+you(\s+doing)?\??$`. -/
def greetP6 (m : List Char) : Bool :=
  match matchWordsGap m ["how", "are", "you"] with
  | some rest =>
    optQmarkEnd rest ||
    (match dropSpaces1 rest with
     | some rest2 => "doing".data.isPrefixOf rest2 && optQmarkEnd (rest2.drop 5)
     | none => false)
  | none => false

/-- Pattern 7: `^what's\s+up\??$`. -/
def greetP7 (m : List Char) : Bool :=
  match matchWordsGap m ["what's", "up"] with
  | some rest => optQmarkEnd rest
  | none => false

/-- Pattern 8: `^how's\it\s+going\??$`; the escaped `i` makes the literal
head `how'sit`. -/
def greetP8 (m : List Char) : Bool :=
  match matchWordsGap m ["how'sit", "going"] with
  | some rest => optQmarkEnd rest
  | none => false

/-- Model of `PatternMatcher.isGreeting` (lines 423-426). -/
def pmIsGreeting (message : String) : Bool :=
  let m := (jsToLower (jsTrim message)).data
  greetP1Words m || greetP1Good m || greetP2 m || greetP3 m || greetP4 m ||
  greetP5 m || greetP6 m || greetP7 m || greetP8 m

/-- Model of `PatternMatcher.isProcedural` (lines 417-421, 428-430):
the three `PROCEDURAL_PATTERNS`; `steps?` and `instructions?` are expanded
into both alternatives. -/
def pmIsProcedural (message : String) : Bool :=
  let lower := jsToLower message
  hasAnyWordPhrase
    ["how to", "steps", "step", "process", "procedure", "guide",
     "instructions", "instruction", "set up", "arrange", "organize",
     "get started"] lower ||
  hasAnyWordPhrase
    ["what are the steps", "what is the process", "how do i"] lower ||
  (["first", "next", "then", "finally", "after that"].any fun p =>
    (List.range (lower.length + 1)).any fun i =>
      matchPhraseAt lower.data i p.data &&
      qmarkBeforeNewline (lower.data.drop (i + p.length)))

/-- Model of `PatternMatcher.isContactQuery` (lines 432-438). -/
def pmIsContactQuery (message : String) : Bool :=
  let lower := jsToLower message
  hasAnyWordPhrase
    ["contact", "phone", "email", "call", "reach", "speak", "talk"] lower ||
  wordGapWord lower.data "how".data "reach".data ||
  wordGapWord lower.data "how".data "contact".data ||
  hasWordPhrase "get in touch" lower

/-- One user/bot exchange of the per-session conversation history. -/
structure HistoryEntry where
  user : String
  bot : String

/-- Model of `PatternMatcher.isContactFollowup` (lines 441-453). -/
def pmIsContactFollowup (message : String) (history : List HistoryEntry) : Bool :=
  match history with
  | [] => false
  | _ =>
    let lastBot := jsToLower ((history.getLast?.map fun e => e.bot).getD "")
    (containsThen lastBot.data "contact".data "team".data ||
     strContains lastBot "reach out" ||
     strContains lastBot "get in touch" ||
     strContains lastBot "call us" ||
     strContains lastBot "email us") &&
    pmIsContactQuery message

/-! ### `ContextBuilder` (first variant, lines 457-551) -/

/-- The procedural marker test of `prioritizeMatches`
(lines 506-507): `/\b(step|first|next|then|finally)\b/i` on
`a.item.A || a.item.answer || ''`. -/
def hasProcMarker (m : ScoredMatch) : Bool :=
  hasAnyWordPhrase ["step", "first", "next", "then", "finally"]
    (jsToLower (jsOrS m.item.A (jsOrS m.item.answer "")))

/-- `ContextBuilder.PRIORITY_WEIGHTS` lookup with the `|| 1` default
(lines 458, 516-518). -/
def priorityWeightCB (item : Item) : Nat :=
  match item.metadata with
  | some md =>
    match md.priority with
    | some p =>
      if p = "high" then 3 else if p = "medium" then 2
      else if p = "low" then 1 else 1
    | none => 1
  | none => 1

/-- The lexicographic sort key induced by the comparator of the first
variant's `prioritizeMatches` (lines 503-521): procedural-content flag
(only for procedural queries), then score, then priority weight, all
descending. -/
noncomputable def sortKeyA (isProcedural : Bool) (m : ScoredMatch) :
    Bool ×ₗ ℝ ×ₗ ℕ :=
  toLex (isProcedural && hasProcMarker m, toLex (m.score, priorityWeightCB m.item))

/-- Model of the first variant's `ContextBuilder.prioritizeMatches`
(lines 503-521). -/
noncomputable def prioritizeMatchesA (matchList : List ScoredMatch)
    (isProcedural : Bool) : List ScoredMatch :=
  sortByKeyDesc (sortKeyA isProcedural) matchList

/-- Model of the first variant's `ContextBuilder.formatMatch`
(lines 524-550). -/
def formatMatchA (item : Item) (metadata : Metadata) : String :=
  let intentTag :=
    match metadata.intent with
    | some it =>
      if it = "" then ""
      else "[" ++ jsToUpper (String.mk (replaceFirstUnderscore it.data)) ++ "]"
    | none => ""
  let priorityTag :=
    match metadata.priority with
    | some p => if p = "" then "" else "(" ++ p ++ ")"
    | none => ""
  let categoryTag :=
    match item.category with
    | some c => if c = "" then "" else "Category: " ++ c
    | none => ""
  let subCategoryTag :=
    match item.sub_category with
    | some c => if c = "" then "" else "Sub-category: " ++ c
    | none => ""
  let question := jsOrS item.Q (jsOrS item.question "")
  let answer := jsOrS item.A (jsOrS item.answer (jsOrS item.text ""))
  let f0 := "\n" ++ intentTag ++ priorityTag ++ "\nQ: " ++ question ++
            "\nA: " ++ answer ++ "\n"
  let f1 := if categoryTag ≠ "" then f0 ++ categoryTag else f0
  let f2 := if subCategoryTag ≠ "" then f1 ++ " | " ++ subCategoryTag else f1
  let f3 :=
    match metadata.context with
    | some ctx => if ctx = "" then f2 else f2 ++ "\nContext: " ++ ctx
    | none => f2
  f3 ++ "\n---\n"

/-- The loop of the first variant's `ContextBuilder.build`
(lines 471-488); `i` is the loop index, the list argument is the unvisited
suffix of the first `maxItems` prioritized matches. -/
noncomputable def buildLoopA (kb : KnowledgeBase) (isProcedural : Bool) :
    List ScoredMatch → Nat → String → List Item → String × List Item
  | [], _, contextText, relatedContent => (contextText, relatedContent)
  | m :: rest, i, contextText, relatedContent =>
    let metadata := m.item.metadata.getD {}
    let contextText1 := contextText ++ formatMatchA m.item metadata
    let relatedContent1 :=
      if i = 0 && isProcedural && relatedContent.length = 0 then
        match kb.items.findIdx? fun kbItem => decide (kbItem = m.item) with
        | some itemIndex => getRelatedContent kb itemIndex 4
        | none => relatedContent
      else relatedContent
    if decide ((0.8 : ℝ) < m.score) && 600 < contextText1.length then
      (contextText1, relatedContent1)
    else buildLoopA kb isProcedural rest (i + 1) contextText1 relatedContent1

/-- Model of the first variant's `ContextBuilder.build` (lines 460-501). -/
noncomputable def buildA (matchList : List ScoredMatch) (userQuestion : String)
    (kb : KnowledgeBase) : String × List Item :=
  match matchList with
  | [] => ("", [])
  | _ =>
    let isProcedural := pmIsProcedural userQuestion
    let prioritized := prioritizeMatchesA matchList isProcedural
    let maxItems := if isProcedural then min 6 MAX_CONTEXT_ITEMS else MAX_CONTEXT_ITEMS
    let (contextText, relatedContent) :=
      buildLoopA kb isProcedural (prioritized.take maxItems) 0 "" []
    if isProcedural && 0 < relatedContent.length then
      (contextText ++ "\n\n## Related Information:\n" ++
        String.join ((relatedContent.take 3).map fun item =>
          formatMatchA item (item.metadata.getD {})),
       relatedContent)
    else (contextText, relatedContent)

/-! ### `ResponseGenerator` (first variant, lines 910-936) and the
closing-phrase helpers of `ChatBot` (lines 667-694).  `Math.random`-based
choices are modelled by an externally supplied draw. -/

/-- Model of `generateGreeting` (lines 924-935).  `randDraw` models the
`Math.floor(Math.random() * defaults.length)` draw of the default branch. -/
def generateGreeting (message : String) (randDraw : Nat) : String :=
  let lower := (jsToLower (jsTrim message))
  let s := lower.data
  let timeMatch : Option String :=
    ((List.range (s.length + 1)).find? fun i =>
      "good".data.isPrefixOf (s.drop i) && isSpaceChar (s.getD (i + 4) 'x') &&
      (["morning", "afternoon", "evening"].any fun w =>
        w.data.isPrefixOf (s.drop (i + 5)))).map fun i =>
      let w := (["morning", "afternoon", "evening"].find? fun w =>
        w.data.isPrefixOf (s.drop (i + 5))).getD ""
      String.mk ((s.drop i).take (5 + w.length))
  match timeMatch with
  | some matched => matched ++ "! How can I help you with Jeavons Eurotir services today?"
  | none =>
    if "thank".data.isPrefixOf s then
      "You're welcome! Is there anything else I can help you with?"
    else if ["goodbye", "bye", "see ya", "see you", "farewell"].any
        fun p => p.data.isPrefixOf s then
      "Goodbye! Feel free to reach out if you have any more questions about our services."
    else if containsWordsGap s ["how", "are", "you"] ||
            containsWordsGap s ["how", "are", "things"] ||
            containsWordsGap s ["how", "is", "it", "going"] then
      "I'm doing well, thank you! I'm here to help you with any questions about Jeavons Eurotir's services. How can I assist you today?"
    else
      ["Hello! How can I assist you with Jeavons Eurotir services today?",
       "Hi there! What can I help you with regarding our logistics services?",
       "Hello! I'm here to help with questions about warehousing, shipping, customs, and freight services. What do you need assistance with?",
       "Hi! How can I help you with Jeavons Eurotir today?"].getD (randDraw % 4) ""

/-- Model of `answerHasClosingPhrase` (lines 668-679). -/
def answerHasClosingPhrase (answerText : String) : Bool :=
  let s := (jsToLower answerText).data
  (["feel free to contact", "feel free to reach out", "feel free to ask"].any
    fun p => listContains s p.data) ||
  listContains s "let me know if you need".data ||
  containsThen s "is there anything else".data "help with".data ||
  listContains s "please don't hesitate to contact".data ||
  listContains s "we're here to help".data ||
  containsThen s "for more information".data "contact".data ||
  containsThen3 s "reach out to".data "team".data "assist".data

/-- Model of `addClosingPhrase` (lines 682-694); `randDraw` models the
`Math.random` phrase selection. -/
def addClosingPhrase (answerText : String) (randDraw : Nat) : String :=
  let selectedPhrase :=
    ["Let me know if you need assistance with anything else.",
     "Feel free to ask if you have more questions.",
     "Let me know how else I can assist you.",
     "I'm here to help with any other questions you might have.",
     "Please ask if you need anything else."].getD (randDraw % 5) ""
  answerText ++ "\n\n" ++ selectedPhrase

/-! ### `QueryCache` (lines 871-909).  `Date.now()` is an explicit `now`
argument; the key-value `Map` is a function from keys to optional entries. -/

/-- A cache entry: `{ timestamp, data }` (lines 896-899). -/
structure CacheEntry (α : Type) where
  timestamp : Nat
  data : α

/-- The cache state: entries plus the configured TTL (lines 872-876). -/
structure QueryCache (α : Type) where
  cache : String → Option (CacheEntry α) := fun _ => none
  ttl : Nat := CACHE_TTL

/-- Model of `QueryCache.get` (lines 878-885): a present entry older than
`ttl` is deleted and reported as a miss, a fresh entry is returned.
Returns the result together with the possibly-updated cache. -/
def QueryCache.get {α : Type} (qc : QueryCache α) (key : String) (now : Nat) :
    Option α × QueryCache α :=
  match qc.cache key with
  | none => (none, qc)
  | some entry =>
    if qc.ttl < now - entry.timestamp then
      (none, { qc with cache := fun k => if k = key then none else qc.cache k })
    else (some entry.data, qc)

/-- Model of `QueryCache.set` (lines 887-892). -/
def QueryCache.set {α : Type} (qc : QueryCache α) (key : String) (data : α)
    (now : Nat) : QueryCache α :=
  { qc with cache := fun k =>
      if k = key then some { timestamp := now, data := data } else qc.cache k }

/-! ### `ChatBot.processQuery` (lines 659-869).

The two provider calls (embedding and chat completion) are the only
suspension points; their outcomes are inputs of the model
(`RequestEnv`).  The request payloads built for them (the system prompt of
`SystemPromptBuilder`) do not influence the state transition and are not
modelled.  `Math.random` draws and `Date.now()` are likewise inputs.
`detectTheme` (lines 225-295) and `cleanupFormattingArtifacts`
(lines 845-855) are pure text functions whose outputs feed only the
response payload and never any branch condition; they are supplied as
opaque parameters (`TextHelpers`), so every theorem below holds for the
actual functions. -/

/-- One element of the `matches` field of the response (lines 786-795). -/
structure MatchOut where
  score : ℝ
  base_score : Option ℝ
  boosts : Option Boosts
  Q : Option String
  A : Option String
  category : Option String
  sub_category : Option String
  metadata : Option Metadata

/-- One element of the `related_content` field of the response
(lines 802-807). -/
structure RelatedOut where
  Q : Option String
  A : Option String
  category : Option String
  sub_category : Option String

/-- The response object of `processQuery`.  The JS `matches` field is named
`matchList` (`matches` is a Lean keyword); the greeting response carries no
`is_procedural` field, modelled as `none`. -/
structure Response where
  answer : String
  matchList : List MatchOut
  context_used : Bool
  detected_intent : Option String
  detected_theme : Option String
  is_greeting : Bool
  is_procedural : Option Bool
  is_contact_followup : Bool
  related_content : List RelatedOut

/-- The mutable state of a `ChatBot` (lines 660-665): knowledge base,
response cache, and the per-session conversation history map. -/
structure ChatBotState where
  kb : KnowledgeBase
  cache : QueryCache Response
  history : String → Option (List HistoryEntry) := fun _ => none

/-- The text-cosmetic helpers passed through opaquely (see above). -/
structure TextHelpers where
  detectTheme : String → String
  cleanup : String → String

/-- Outcome of an external provider call: a value, or a raised error whose
`code` property drives the error-message selection (lines 824-834). -/
inductive ProviderOutcome (α : Type) where
  | ok (value : α)
  | failure (code : Option String)

/-- Per-request inputs of `processQuery`: the two provider outcomes, the
two `Math.random` draws and the current time. -/
structure RequestEnv where
  embedding : ProviderOutcome (List ℝ)
  chat : ProviderOutcome (Option String)
  randGreeting : Nat := 0
  randClosing : Nat := 0
  now : Nat := 0

/-- Push one exchange and cap the history at `MAX_HISTORY_LENGTH * 2`
entries; model of the `push` / `splice` idiom (lines 714-717, 811-814,
836-839). -/
def pushCapped (l : List HistoryEntry) (e : HistoryEntry) : List HistoryEntry :=
  let l2 := l ++ [e]
  if MAX_HISTORY_LENGTH * 2 < l2.length then
    l2.drop (l2.length - MAX_HISTORY_LENGTH * 2)
  else l2

/-- Overwrite the history list of one session. -/
def setHistory (st : ChatBotState) (sessionId : String)
    (l : List HistoryEntry) : ChatBotState :=
  { st with history := fun s => if s = sessionId then some l else st.history s }

/-- The error message chosen in the catch block (lines 823-834). -/
def errorMessageFor (code : Option String) : String :=
  if code = some "insufficient_quota" then
    "I'm temporarily unavailable due to service limits. Please contact us directly at +44 (0)121 765 4166."
  else if code = some "rate_limit_exceeded" then
    "I'm receiving too many requests right now. Please try again in a moment."
  else "I'm experiencing technical difficulties. Please try again later."

/-- Model of `ChatBot.processQuery` (lines 695-843).  A thrown error is
`Except.error`; the returned state carries the updated cache and history. -/
noncomputable def processQuery (helpers : TextHelpers) (st0 : ChatBotState)
    (question sessionId : String) (env : RequestEnv) :
    Except String Response × ChatBotState :=
  let history0 := (st0.history sessionId).getD []
  let st := setHistory st0 sessionId history0
  if pmIsGreeting question then
    let answer := generateGreeting question env.randGreeting
    let response : Response :=
      { answer := answer, matchList := [], context_used := false,
        detected_intent := none, detected_theme := none, is_greeting := true,
        is_procedural := none, is_contact_followup := false,
        related_content := [] }
    (Except.ok response,
     setHistory st sessionId (pushCapped history0 ⟨question, answer⟩))
  else
    let cacheKey := jsToLower (jsTrim question)
    let got := QueryCache.get st.cache cacheKey env.now
    let st1 := { st with cache := got.2 }
    match got.1 with
    | some cached => (Except.ok cached, st1)
    | none =>
      match env.embedding with
      | .failure code =>
        let errorMessage := errorMessageFor code
        (Except.error errorMessage,
         setHistory st1 sessionId (pushCapped history0 ⟨question, errorMessage⟩))
      | .ok queryEmbedding =>
        let matchList := findTopMatches st1.kb queryEmbedding question MAX_CONTEXT_ITEMS
        let isProcedural := pmIsProcedural question
        let detectedTheme := helpers.detectTheme question
        let isContactFollowup := pmIsContactFollowup question history0
        let built := buildA matchList question st1.kb
        let contextText := built.1
        let relatedContent := built.2
        match env.chat with
        | .failure code =>
          let errorMessage := errorMessageFor code
          (Except.error errorMessage,
           setHistory st1 sessionId (pushCapped history0 ⟨question, errorMessage⟩))
        | .ok content =>
          let noContext := contextText.length = 0 || isContactFollowup
          let answer :=
            if noContext then
              jsOrS content "I apologize, but I couldn't generate a response at this time. Please contact us at +44 (0)121 765 4166 for assistance."
            else
              let answer0 := jsOrS content "I apologize, but I couldn't generate a response at this time."
              let answer1 := helpers.cleanup answer0
              if !pmIsGreeting question && !answerHasClosingPhrase answer1 then
                addClosingPhrase answer1 env.randClosing
              else answer1
          let contextUsed := if noContext then false else decide (0 < contextText.length)
          let response : Response :=
            { answer := answer,
              matchList := matchList.map fun m =>
                { score := m.score, base_score := m.baseScore, boosts := m.boosts,
                  Q := jsOrOpt m.item.Q m.item.question,
                  A := jsOrOpt m.item.A m.item.answer,
                  category := m.item.category,
                  sub_category := m.item.sub_category,
                  metadata := m.item.metadata },
              context_used := contextUsed,
              detected_intent := detectIntent question,
              detected_theme := some detectedTheme,
              is_greeting := false,
              is_procedural := some isProcedural,
              is_contact_followup := isContactFollowup,
              related_content := relatedContent.map fun item =>
                { Q := jsOrOpt item.Q item.question,
                  A := jsOrOpt item.A item.answer,
                  category := item.category,
                  sub_category := item.sub_category } }
          let st2 := setHistory st1 sessionId (pushCapped history0 ⟨question, answer⟩)
          let st3 :=
            if 0 < matchList.length ∧ isContactFollowup = false then
              { st2 with cache := QueryCache.set st2.cache cacheKey response env.now }
            else st2
          (Except.ok response, st3)

/-! ### Second variant: `getRelatedQuestions` (lines 1224-1243) and
`ContextBuilder` (lines 1310-1390), the context assembler with
intent deduplication. -/

/-- A related question/answer pair (lines 1231-1236). -/
structure RelatedQ where
  question : Option String
  answer : Option String

noncomputable instance : DecidableEq RelatedQ := fun _ _ => Classical.dec _

/-- Model of the second variant's `KnowledgeBase.getRelatedQuestions`
(lines 1224-1243). -/
def getRelatedQuestions (items : List Item) (itemIndex : Nat)
    (maxRelated : Nat) : List RelatedQ :=
  match items[itemIndex]? with
  | none => []
  | some item =>
    match item.metadata with
    | none => []
    | some md =>
      match md.related_questions with
      | none => []
      | some rqs =>
        (rqs.take maxRelated).filterMap fun relatedIndex =>
          if relatedIndex < items.length then
            let relatedItem := items.getD relatedIndex {}
            some { question := jsOrOpt relatedItem.Q relatedItem.question,
                   answer := jsOrOpt relatedItem.A relatedItem.answer }
          else none

/-- Model of the second variant's `ContextBuilder.formatMatch`
(lines 1368-1388). -/
def formatMatchB (item : Item) (metadata : Metadata) : String :=
  let intentTag :=
    match metadata.intent with
    | some it =>
      if it = "" then ""
      else "[" ++ jsToUpper (String.mk (replaceFirstUnderscore it.data)) ++ "]"
    | none => ""
  let priorityTag :=
    match metadata.priority with
    | some p => if p = "" then "" else "(" ++ p ++ ")"
    | none => ""
  let keywordTags :=
    match metadata.keywords with
    | some kws => "Keywords: " ++ String.intercalate ", " kws
    | none => ""
  let question := jsOrS item.Q (jsOrS item.question "")
  let answer := jsOrS item.A (jsOrS item.answer (jsOrS item.text ""))
  let f0 := "\n" ++ intentTag ++ priorityTag ++ " Q: " ++ question ++
            "\nA: " ++ answer
  let f1 := if keywordTags ≠ "" then f0 ++ "\n" ++ keywordTags else f0
  let f2 :=
    match metadata.context with
    | some ctx => if ctx = "" then f1 else f1 ++ "\nContext: " ++ ctx
    | none => f1
  f2 ++ "\n"

/-- The sort key of the second variant's `prioritizeMatches`
(lines 1355-1365): score, then priority weight, descending. -/
noncomputable def sortKeyB (m : ScoredMatch) : ℝ ×ₗ ℕ :=
  toLex (m.score, priorityWeightCB m.item)

/-- Model of the second variant's `ContextBuilder.prioritizeMatches`
(lines 1355-1365). -/
noncomputable def prioritizeMatchesB (matchList : List ScoredMatch) :
    List ScoredMatch :=
  sortByKeyDesc sortKeyB matchList

/-- Loop state of the second variant's `ContextBuilder.build`
(lines 1316-1320).  `emitted` is a ghost component recording the matches
whose context block was appended; `contextText` is always the concatenation
of their `formatMatchB` blocks. -/
structure BuildStateB where
  i : Nat := 0
  seenIntents : List (Option String) := []
  contextText : String := ""
  relatedQuestions : List RelatedQ := []
  seenRelated : List (Option String) := []
  emitted : List ScoredMatch := []

/-- JS `Set.add` on the intent set: membership is what matters. -/
def setAddIntent (s : List (Option String)) (x : Option String) :
    List (Option String) :=
  if x ∈ s then s else s ++ [x]

/-- One related-question accumulation step (lines 1339-1345). -/
def relatedStep (acc : BuildStateB) (r : RelatedQ) : BuildStateB :=
  if r.question ∈ acc.seenRelated then acc
  else { acc with seenRelated := acc.seenRelated ++ [r.question],
                  relatedQuestions := acc.relatedQuestions ++ [r] }

/-- The related-question accumulation of the second variant's `build`
(lines 1334-1347). -/
noncomputable def addRelatedB (items : List Item) (m : ScoredMatch)
    (st : BuildStateB) : BuildStateB :=
  if st.i < 3 ∧ st.relatedQuestions.length < 9 then
    match items.findIdx? fun kbItem => decide (kbItem = m.item) with
    | some itemIndex => (getRelatedQuestions items itemIndex 3).foldl relatedStep st
    | none => st
  else st

/-- Appending one match's context block (lines 1329-1332): record the
intent as seen, append the formatted block, and record the match as
emitted. -/
noncomputable def emitStep (st : BuildStateB) (m : ScoredMatch) : BuildStateB :=
  { st with
    seenIntents := setAddIntent st.seenIntents (m.item.metadata.getD {}).intent,
    contextText := st.contextText ++ formatMatchB m.item (m.item.metadata.getD {}),
    emitted := st.emitted ++ [m] }

/-- The loop of the second variant's `ContextBuilder.build`
(lines 1322-1351): skip a duplicate intent below the 0.7 confidence bar,
otherwise append the block, collect related questions for the first three
visited positions, and stop early once a high-confidence block pushes the
context past 500 characters. -/
noncomputable def buildLoopB (items : List Item) :
    List ScoredMatch → BuildStateB → BuildStateB
  | [], st => st
  | m :: rest, st =>
    if (m.item.metadata.getD {}).intent ∈ st.seenIntents ∧ m.score < 0.7 then
      buildLoopB items rest { st with i := st.i + 1 }
    else
      let st2 := addRelatedB items m (emitStep st m)
      if decide ((0.8 : ℝ) < m.score) && 500 < st2.contextText.length then st2
      else buildLoopB items rest { st2 with i := st.i + 1 }

/-- Model of the second variant's `ContextBuilder.build` (lines 1313-1353). -/
noncomputable def buildB (matchList : List ScoredMatch) (items : List Item) :
    BuildStateB :=
  match matchList with
  | [] => {}
  | _ => buildLoopB items (prioritizeMatchesB matchList) {}

/-! ### Fixtures: concrete states and inputs used by the claim
witnesses and counterexamples, and the spec-side substring predicate. -/

/-- The `magnitudes` array is the one `load` computes from `items`. -/
def magnitudesConsistent (kb : KnowledgeBase) : Prop :=
  kb.magnitudes = kb.items.map itemMagnitude

/-- The spec's "is a substring of": `needle` occurs contiguously in `hay`. -/
def IsSubstringOf (needle hay : String) : Prop :=
  ∃ pre post : List Char, hay.data = pre ++ needle.data ++ post

/-- A knowledge item with the zero vector as embedding and no other data. -/
noncomputable def itemZ : Item := { embedding := some [(0 : ℝ)] }

/-- The one-item knowledge base obtained by a successful `load` of
`[itemZ]`, used by concrete witnesses. -/
noncomputable def kbW : KnowledgeBase := load {} (.valid [itemZ])

/-- Witness for C7: a concrete item with keywords
`["storage", "warehouse", "xq"]`, priority `"high"`, base score `7/20`, and
the query `"storage warehouse quote"` matching exactly two keywords. -/
noncomputable def itemB : Item :=
  { metadata := some { keywords := some ["storage", "warehouse", "xq"],
                       priority := some "high" },
    embedding := some [(7 / 20 : ℝ)] }

/-- An arbitrary knowledge-base state holding `itemB` with unit stored
magnitude (the scenario quantifies over all states). -/
noncomputable def kbB : KnowledgeBase :=
  { items := [itemB], magnitudes := [1], isLoaded := true }

/-- Witness fixtures for C5: two equally-scored matches, one whose answer
contains the procedural markers, one without. -/
noncomputable def matchP : ScoredMatch :=
  { item := { A := some "First do X then Y" }, score := 0.5 }

noncomputable def matchN : ScoredMatch :=
  { item := { A := some "No markers here" }, score := 0.5 }

/-! ### Fixtures for the C6 witness and counterexample -/

/-- A match with intent `"i"` and score `0.75`. -/
noncomputable def cm1 : ScoredMatch :=
  { item := { metadata := some { intent := some "i" } }, score := 0.75 }

/-- A match with the same intent `"i"` and score exactly `0.7`. -/
noncomputable def cm2 : ScoredMatch :=
  { item := { metadata := some { intent := some "i" } }, score := 0.7 }

/-- A match with the same intent `"i"` and score `0.5`. -/
noncomputable def cm3 : ScoredMatch :=
  { item := { metadata := some { intent := some "i" } }, score := 0.5 }

/-- A loop state in which intent `"i"` has already been emitted. -/
def stSeen : BuildStateB := { seenIntents := [some "i"] }

/-! ### Concrete fixtures for the `processQuery` claims -/

/-- Opaque text helpers instantiated trivially for concrete runs. -/
def helpersW : TextHelpers := { detectTheme := fun _ => "general", cleanup := fun s => s }

/-- A fresh bot state: empty knowledge base, empty cache, no sessions. -/
def botW : ChatBotState :=
  { kb := {}, cache := {}, history := fun _ => none }

/-- A request whose embedding call fails with no error code. -/
def envFail : RequestEnv :=
  { embedding := .failure none, chat := .failure none }

/-- A cached response value for the eviction counterexample. -/
def respD : Response :=
  { answer := "x", matchList := [], context_used := false,
    detected_intent := none, detected_theme := none, is_greeting := false,
    is_procedural := none, is_contact_followup := false, related_content := [] }

/-- A bot state whose cache holds, under the key `"q1"`, an entry stored at
time `0`. -/
def botC : ChatBotState :=
  { kb := {},
    cache := { cache := fun k => if k = "q1" then
                 some { timestamp := 0, data := respD } else none,
               ttl := CACHE_TTL },
    history := fun _ => none }

/-- A request arriving one tick after the entry's TTL expired, whose
embedding call then fails. -/
def envLate : RequestEnv :=
  { embedding := .failure none, chat := .failure none, now := CACHE_TTL + 1 }

/-! ## General lemmas -/

/-! ### The stable descending sort -/

theorem insertByKeyDesc_perm {α κ : Type} [LinearOrder κ] (key : α → κ)
    (x : α) (l : List α) : (insertByKeyDesc key x l).Perm (x :: l) := by
  induction l with
  | nil => simp [insertByKeyDesc]
  | cons y ys ih =>
    simp only [insertByKeyDesc]
    split
    · exact List.Perm.refl _
    · exact (ih.cons y).trans (List.Perm.swap x y ys)

theorem sortByKeyDesc_perm {α κ : Type} [LinearOrder κ] (key : α → κ)
    (l : List α) : (sortByKeyDesc key l).Perm l := by
  induction l with
  | nil => simp [sortByKeyDesc]
  | cons x xs ih =>
    exact (insertByKeyDesc_perm key x (sortByKeyDesc key xs)).trans (ih.cons x)

theorem insertByKeyDesc_pairwise {α κ : Type} [LinearOrder κ] (key : α → κ)
    (x : α) (l : List α) (h : l.Pairwise fun a b => key b ≤ key a) :
    (insertByKeyDesc key x l).Pairwise fun a b => key b ≤ key a := by
  induction l with
  | nil => simp [insertByKeyDesc]
  | cons y ys ih =>
    rcases List.pairwise_cons.1 h with ⟨hy, hys⟩
    simp only [insertByKeyDesc]
    split
    · rename_i hc
      refine List.pairwise_cons.2 ⟨?_, h⟩
      intro z hz
      rcases List.mem_cons.1 hz with rfl | hz
      · exact hc
      · exact le_trans (hy z hz) hc
    · rename_i hc
      refine List.pairwise_cons.2 ⟨?_, ih hys⟩
      intro z hz
      rcases List.mem_cons.1 ((insertByKeyDesc_perm key x ys).mem_iff.1 hz) with rfl | hz
      · exact le_of_lt (lt_of_not_le hc)
      · exact hy z hz

theorem sortByKeyDesc_pairwise {α κ : Type} [LinearOrder κ] (key : α → κ)
    (l : List α) :
    (sortByKeyDesc key l).Pairwise fun a b => key b ≤ key a := by
  induction l with
  | nil => simp [sortByKeyDesc]
  | cons x xs ih => exact insertByKeyDesc_pairwise key x _ ih

/-! ### Sums of squares and the Cauchy-Schwarz bound -/

theorem sumSq_nonneg (v : List ℝ) : 0 ≤ sumSq v := by
  induction v with
  | nil => simp [sumSq]
  | cons x xs ih =>
    simp only [sumSq, List.map_cons, List.sum_cons]
    exact add_nonneg (mul_self_nonneg x) ih

theorem sumSq_cons (x : ℝ) (xs : List ℝ) :
    sumSq (x :: xs) = x * x + sumSq xs := by
  simp [sumSq]

theorem dotProduct_cons (x y : ℝ) (xs ys : List ℝ) :
    dotProduct (x :: xs) (y :: ys) = x * y + dotProduct xs ys := by
  simp [dotProduct]

theorem sumSq_eq_zero_iff (v : List ℝ) : sumSq v = 0 ↔ ∀ x ∈ v, x = 0 := by
  induction v with
  | nil => simp [sumSq]
  | cons x xs ih =>
    rw [sumSq_cons]
    constructor
    · intro h
      have hx2 : 0 ≤ x * x := mul_self_nonneg x
      have hxs := sumSq_nonneg xs
      have h1 : x * x = 0 := by linarith
      have h2 : sumSq xs = 0 := by linarith
      intro y hy
      rcases List.mem_cons.1 hy with rfl | hy
      · exact mul_self_eq_zero.1 h1
      · exact (ih.1 h2) y hy
    · intro h
      have hx : x = 0 := h x (List.mem_cons_self x xs)
      have hxs : sumSq xs = 0 := ih.2 fun y hy => h y (List.mem_cons_of_mem x hy)
      rw [hx, hxs]
      ring

theorem dotProduct_zero_left (a b : List ℝ) (h : ∀ x ∈ a, x = 0) :
    dotProduct a b = 0 := by
  induction a generalizing b with
  | nil => simp [dotProduct]
  | cons x xs ih =>
    cases b with
    | nil => simp [dotProduct]
    | cons y ys =>
      have hx : x = 0 := h x (List.mem_cons_self x xs)
      simp only [dotProduct, List.zipWith_cons_cons, List.sum_cons, hx, zero_mul,
        zero_add]
      exact ih ys fun z hz => h z (List.mem_cons_of_mem x hz)

theorem dotProduct_zero_right (a b : List ℝ) (h : ∀ x ∈ b, x = 0) :
    dotProduct a b = 0 := by
  induction a generalizing b with
  | nil => simp [dotProduct]
  | cons x xs ih =>
    cases b with
    | nil => simp [dotProduct]
    | cons y ys =>
      have hy : y = 0 := h y (List.mem_cons_self y ys)
      simp only [dotProduct, List.zipWith_cons_cons, List.sum_cons, hy, mul_zero,
        zero_add]
      exact ih ys fun z hz => h z (List.mem_cons_of_mem y hz)

theorem dotProduct_sq_le (a b : List ℝ) :
    (dotProduct a b) ^ 2 ≤ sumSq a * sumSq b := by
  induction a generalizing b with
  | nil => simp [dotProduct, sumSq]
  | cons x xs ih =>
    cases b with
    | nil => simp [dotProduct, sumSq]
    | cons y ys =>
      have h := ih ys
      have hA := sumSq_nonneg xs
      have hB := sumSq_nonneg ys
      rw [dotProduct_cons, sumSq_cons, sumSq_cons]
      rcases eq_or_lt_of_le hB with hB0 | hBpos
      · have hS : dotProduct xs ys = 0 :=
          dotProduct_zero_right xs ys ((sumSq_eq_zero_iff ys).1 hB0.symm)
        rw [hS, ← hB0]
        nlinarith [mul_nonneg hA (mul_self_nonneg y)]
      · nlinarith [sq_nonneg (sumSq ys * x - dotProduct xs ys * y),
          mul_nonneg (mul_self_nonneg y) (sub_nonneg.2 h),
          mul_nonneg hB (sub_nonneg.2 h), hBpos]

theorem calculateMagnitude_nonneg (v : List ℝ) : 0 ≤ calculateMagnitude v :=
  Real.sqrt_nonneg _

theorem calculateMagnitude_eq_zero_iff (v : List ℝ) :
    calculateMagnitude v = 0 ↔ sumSq v = 0 := by
  unfold calculateMagnitude
  rw [Real.sqrt_eq_zero (sumSq_nonneg v)]

theorem dotProduct_le_magnitudes (a b : List ℝ) :
    dotProduct a b ≤ calculateMagnitude a * calculateMagnitude b := by
  have h := dotProduct_sq_le a b
  calc dotProduct a b ≤ |dotProduct a b| := le_abs_self _
    _ = Real.sqrt ((dotProduct a b) ^ 2) := (Real.sqrt_sq_eq_abs _).symm
    _ ≤ Real.sqrt (sumSq a * sumSq b) := Real.sqrt_le_sqrt h
    _ = calculateMagnitude a * calculateMagnitude b := by
        unfold calculateMagnitude
        exact Real.sqrt_mul (sumSq_nonneg a) _

/-! ### Magnitude consistency

After every successful `load`, `magnitudes[i]` is the magnitude of
`items[i].embedding` (`0` for an absent embedding); nothing else mutates
either array, so this is an invariant of every knowledge base the running
system ever queries. -/


theorem magnitude_lookup (kb : KnowledgeBase) (h : magnitudesConsistent kb)
    (index : Nat) (item : Item) (hidx : kb.items[index]? = some item) :
    kb.magnitudes.getD index 0 = itemMagnitude item := by
  rw [h, List.getD_eq_getElem?_getD, List.getElem?_map, hidx]
  rfl

/-- Reduction of `cosineSimilarity` on two present vectors of equal
length. -/
theorem cosineSimilarity_eq (q v : List ℝ) (m : ℝ) (hlen : q.length = v.length) :
    cosineSimilarity (some q) (some v) m =
      dotProduct q v /
        (if calculateMagnitude q * m = 0 then 1e-10 else calculateMagnitude q * m) := by
  simp [cosineSimilarity, hlen]

/-- Reduction of `cosineSimilarity` on a length mismatch. -/
theorem cosineSimilarity_len_mismatch (q v : List ℝ) (m : ℝ)
    (hlen : q.length ≠ v.length) :
    cosineSimilarity (some q) (some v) m = -1 := by
  simp [cosineSimilarity, hlen]

/-- Some bound on the cosine similarity under a consistent magnitude: at
most `1` by Cauchy-Schwarz when the magnitude product is nonzero; in the
`1e-10` branch the dot product is itself zero. -/
theorem cosineSimilarity_le_one (q v : List ℝ) :
    cosineSimilarity (some q) (some v) (calculateMagnitude v) ≤ 1 := by
  by_cases hlen : q.length = v.length
  · rw [cosineSimilarity_eq q v _ hlen]
    by_cases hd : calculateMagnitude q * calculateMagnitude v = 0
    · rw [if_pos hd]
      rcases mul_eq_zero.1 hd with h0 | h0
      · have hz : dotProduct q v = 0 :=
          dotProduct_zero_left q v
            ((sumSq_eq_zero_iff q).1 ((calculateMagnitude_eq_zero_iff q).1 h0))
        rw [hz]
        norm_num
      · have hz : dotProduct q v = 0 :=
          dotProduct_zero_right q v
            ((sumSq_eq_zero_iff v).1 ((calculateMagnitude_eq_zero_iff v).1 h0))
        rw [hz]
        norm_num
    · rw [if_neg hd]
      have hpos : 0 < calculateMagnitude q * calculateMagnitude v :=
        lt_of_le_of_ne
          (mul_nonneg (calculateMagnitude_nonneg q) (calculateMagnitude_nonneg v))
          (Ne.symm hd)
      rw [div_le_one hpos]
      exact dotProduct_le_magnitudes q v
  · rw [cosineSimilarity_len_mismatch q v _ hlen]
    norm_num

/-- Under magnitude consistency, every base score is at most `1`. -/
theorem baseScoreOf_le_one (kb : KnowledgeBase) (h : magnitudesConsistent kb)
    (q : List ℝ) (item : Item) (index : Nat)
    (hidx : kb.items[index]? = some item) :
    baseScoreOf kb q item index ≤ 1 := by
  unfold baseScoreOf
  cases hemb : item.embedding with
  | none => norm_num
  | some emb =>
    have hmag : kb.magnitudes.getD index 0 = calculateMagnitude emb := by
      rw [magnitude_lookup kb h index item hidx]
      unfold itemMagnitude
      rw [hemb]
    rw [hmag]
    exact cosineSimilarity_le_one q emb

/-! ### Nonnegativity of the boost components -/

theorem keywordBoost_nonneg (metadata : Metadata) (queryWords : List String) :
    0 ≤ keywordBoost metadata queryWords := by
  unfold keywordBoost
  cases metadata.keywords with
  | none => norm_num
  | some kws =>
    refine le_min (by norm_num) ?_
    unfold KEYWORD_BOOST
    positivity

theorem intentBoost_nonneg (metadata : Metadata) (detectedIntent : Option String) :
    0 ≤ intentBoost metadata detectedIntent := by
  cases detectedIntent with
  | none => simp [intentBoost]
  | some di =>
    simp only [intentBoost]
    split_ifs <;> norm_num [INTENT_BOOST]

theorem categoryBoost_nonneg (item : Item) (isProcedural : Bool) :
    0 ≤ categoryBoost item isProcedural := by
  unfold categoryBoost
  split <;> norm_num [CATEGORY_BOOST]

theorem proceduralBoost_nonneg (item : Item) (isProcedural : Bool) :
    0 ≤ proceduralBoost item isProcedural := by
  unfold proceduralBoost
  split <;> norm_num [PROCEDURAL_BOOST]

theorem priorityBoost_nonneg (metadata : Metadata) :
    0 ≤ priorityBoost metadata := by
  rcases hp : metadata.priority with _ | p
  · simp [priorityBoost, hp]
  · simp only [priorityBoost, hp]
    split_ifs <;> norm_num

/-- The five boost components are each non-negative, and `total` is their
sum. -/
theorem calculateBoosts_nonneg (item : Item) (queryWords : List String)
    (detectedIntent : Option String) (isProcedural : Bool) :
    0 ≤ (calculateBoosts item queryWords detectedIntent isProcedural).keyword ∧
    0 ≤ (calculateBoosts item queryWords detectedIntent isProcedural).intent ∧
    0 ≤ (calculateBoosts item queryWords detectedIntent isProcedural).category ∧
    0 ≤ (calculateBoosts item queryWords detectedIntent isProcedural).procedural ∧
    0 ≤ (calculateBoosts item queryWords detectedIntent isProcedural).priority ∧
    (calculateBoosts item queryWords detectedIntent isProcedural).total =
      (calculateBoosts item queryWords detectedIntent isProcedural).keyword +
      (calculateBoosts item queryWords detectedIntent isProcedural).intent +
      (calculateBoosts item queryWords detectedIntent isProcedural).category +
      (calculateBoosts item queryWords detectedIntent isProcedural).procedural +
      (calculateBoosts item queryWords detectedIntent isProcedural).priority :=
  ⟨keywordBoost_nonneg _ _, intentBoost_nonneg _ _, categoryBoost_nonneg _ _,
   proceduralBoost_nonneg _ _, priorityBoost_nonneg _, rfl⟩

theorem calculateBoosts_total_nonneg (item : Item) (queryWords : List String)
    (detectedIntent : Option String) (isProcedural : Bool) :
    0 ≤ (calculateBoosts item queryWords detectedIntent isProcedural).total := by
  obtain ⟨h1, h2, h3, h4, h5, ht⟩ :=
    calculateBoosts_nonneg item queryWords detectedIntent isProcedural
  rw [ht]
  linarith

/-- The `total` field of `calculateBoosts` is the sum of the five
components, written through the metadata default. -/
theorem calculateBoosts_total (item : Item) (qw : List String)
    (di : Option String) (proc : Bool) :
    (calculateBoosts item qw di proc).total =
      keywordBoost (item.metadata.getD {}) qw +
      intentBoost (item.metadata.getD {}) di +
      categoryBoost item proc + proceduralBoost item proc +
      priorityBoost (item.metadata.getD {}) := rfl

/-! ### `load` and `buildMetadataIndexes` preservation lemmas -/

theorem indexStep_items (kb : KnowledgeBase) (i : Nat) (item : Item) :
    (indexStep kb i item).items = kb.items := rfl

theorem foldl_indexStep_items (l : List (Nat × Item)) :
    ∀ acc : KnowledgeBase,
      (l.foldl (fun acc p => indexStep acc p.1 p.2) acc).items = acc.items := by
  induction l with
  | nil => intro acc; rfl
  | cons p t ih =>
    intro acc
    rw [List.foldl_cons, ih, indexStep_items]

theorem foldl_indexStep_magnitudes (l : List (Nat × Item)) :
    ∀ acc : KnowledgeBase,
      (l.foldl (fun acc p => indexStep acc p.1 p.2) acc).magnitudes =
        acc.magnitudes := by
  induction l with
  | nil => intro acc; rfl
  | cons p t ih =>
    intro acc
    rw [List.foldl_cons, ih]
    rfl

theorem foldl_indexStep_isLoaded (l : List (Nat × Item)) :
    ∀ acc : KnowledgeBase,
      (l.foldl (fun acc p => indexStep acc p.1 p.2) acc).isLoaded =
        acc.isLoaded := by
  induction l with
  | nil => intro acc; rfl
  | cons p t ih =>
    intro acc
    rw [List.foldl_cons, ih]
    rfl

theorem buildMetadataIndexes_items (kb : KnowledgeBase) :
    (buildMetadataIndexes kb).items = kb.items := by
  unfold buildMetadataIndexes
  rw [foldl_indexStep_items]

theorem buildMetadataIndexes_magnitudes (kb : KnowledgeBase) :
    (buildMetadataIndexes kb).magnitudes = kb.magnitudes := by
  unfold buildMetadataIndexes
  rw [foldl_indexStep_magnitudes]

theorem buildMetadataIndexes_isLoaded (kb : KnowledgeBase) :
    (buildMetadataIndexes kb).isLoaded = kb.isLoaded := by
  unfold buildMetadataIndexes
  rw [foldl_indexStep_isLoaded]

theorem load_valid_items (kb : KnowledgeBase) (items : List Item) :
    (load kb (.valid items)).items = items := by
  unfold load
  rw [buildMetadataIndexes_items]

theorem load_valid_magnitudes (kb : KnowledgeBase) (items : List Item) :
    (load kb (.valid items)).magnitudes = items.map itemMagnitude := by
  unfold load
  rw [buildMetadataIndexes_magnitudes]

theorem load_valid_isLoaded (kb : KnowledgeBase) (items : List Item) :
    (load kb (.valid items)).isLoaded = true := by
  unfold load
  rw [buildMetadataIndexes_isLoaded]

/-- Every successful `load` establishes the magnitude invariant. -/
theorem load_valid_consistent (kb : KnowledgeBase) (items : List Item) :
    magnitudesConsistent (load kb (.valid items)) := by
  unfold magnitudesConsistent
  rw [load_valid_items, load_valid_magnitudes]

/-! ### `scoreEntry` characterizations -/

theorem scoreEntry_pos (kb : KnowledgeBase) (q : List ℝ) (qw : List String)
    (di : Option String) (proc : Bool) (item : Item) (index : Nat)
    (h : 0 < baseScoreOf kb q item index) :
    scoreEntry kb q qw di proc item index =
      { item := item,
        score := min 1 (baseScoreOf kb q item index +
          (calculateBoosts item qw di proc).total),
        baseScore := some (baseScoreOf kb q item index),
        boosts := some (calculateBoosts item qw di proc) } := by
  unfold scoreEntry
  rw [if_neg (not_le.2 h)]

theorem scoreEntry_nonpos (kb : KnowledgeBase) (q : List ℝ) (qw : List String)
    (di : Option String) (proc : Bool) (item : Item) (index : Nat)
    (h : baseScoreOf kb q item index ≤ 0) :
    scoreEntry kb q qw di proc item index =
      { item := item, score := baseScoreOf kb q item index } := by
  unfold scoreEntry
  rw [if_pos h]

theorem baseScoreOf_some (kb : KnowledgeBase) (q : List ℝ) (item : Item)
    (index : Nat) (emb : List ℝ) (h : item.embedding = some emb) :
    baseScoreOf kb q item index =
      cosineSimilarity (some q) (some emb) (kb.magnitudes.getD index 0) := by
  unfold baseScoreOf
  rw [h]

/-! ### Concrete witness fixtures -/


theorem kbW_items : kbW.items = [itemZ] := load_valid_items {} [itemZ]

theorem kbW_item0 : kbW.items[0]? = some itemZ := by
  rw [kbW_items]
  rfl

theorem baseScoreOf_kbW : baseScoreOf kbW [(0 : ℝ)] itemZ 0 = 0 := by
  rw [baseScoreOf_some kbW [(0 : ℝ)] itemZ 0 [(0 : ℝ)] rfl,
    cosineSimilarity_eq _ _ _ rfl]
  have hd : dotProduct [(0 : ℝ)] [(0 : ℝ)] = 0 := by simp [dotProduct]
  rw [hd, zero_div]

/-! ## Claims -/

/-- C1.  For every score computation in `findTopMatches` (one `scoreEntry`
per item of the `scores` array): the score is at most `1`; when the base
score is positive, the score is at least the base score (the five boost
components being non-negative) and equals `min 1 (baseScore + boosts.total)`
— the clamp applied exactly once, at the end; when the base score is
non-positive the entry carries the base score unchanged with no boosts.
The magnitude-consistency hypothesis is the invariant established by every
successful `load` (`load_valid_consistent`), the only way the running
system obtains a queriable knowledge base. -/
theorem C1_score_computation_bounds :
    ∀ (kb : KnowledgeBase) (q : List ℝ) (query : String) (index : Nat)
      (item : Item),
      magnitudesConsistent kb → kb.items[index]? = some item →
      ((computeScores kb q query)[index]? =
        some (scoreEntry kb q (extractQueryWords query) (detectIntent query)
          (isProceduralQuery query) item index)) ∧
      (scoreEntry kb q (extractQueryWords query) (detectIntent query)
        (isProceduralQuery query) item index).score ≤ 1 ∧
      (0 < baseScoreOf kb q item index →
        baseScoreOf kb q item index ≤
          (scoreEntry kb q (extractQueryWords query) (detectIntent query)
            (isProceduralQuery query) item index).score ∧
        (scoreEntry kb q (extractQueryWords query) (detectIntent query)
          (isProceduralQuery query) item index).score =
          min 1 (baseScoreOf kb q item index +
            (calculateBoosts item (extractQueryWords query) (detectIntent query)
              (isProceduralQuery query)).total)) ∧
      (baseScoreOf kb q item index ≤ 0 →
        (scoreEntry kb q (extractQueryWords query) (detectIntent query)
          (isProceduralQuery query) item index).score =
          baseScoreOf kb q item index ∧
        (scoreEntry kb q (extractQueryWords query) (detectIntent query)
          (isProceduralQuery query) item index).boosts = none) ∧
      (0 ≤ (calculateBoosts item (extractQueryWords query) (detectIntent query)
          (isProceduralQuery query)).keyword ∧
       0 ≤ (calculateBoosts item (extractQueryWords query) (detectIntent query)
          (isProceduralQuery query)).intent ∧
       0 ≤ (calculateBoosts item (extractQueryWords query) (detectIntent query)
          (isProceduralQuery query)).category ∧
       0 ≤ (calculateBoosts item (extractQueryWords query) (detectIntent query)
          (isProceduralQuery query)).procedural ∧
       0 ≤ (calculateBoosts item (extractQueryWords query) (detectIntent query)
          (isProceduralQuery query)).priority) := by
  intro kb q query index item hcons hidx
  refine ⟨?_, ?_, ?_, ?_, ?_⟩
  · unfold computeScores
    rw [List.getElem?_mapIdx, hidx]
    rfl
  · by_cases hb : baseScoreOf kb q item index ≤ 0
    · rw [scoreEntry_nonpos kb q _ _ _ item index hb]
      exact le_trans hb (by norm_num)
    · rw [scoreEntry_pos kb q _ _ _ item index (lt_of_not_le hb)]
      exact min_le_left _ _
  · intro hb
    rw [scoreEntry_pos kb q _ _ _ item index hb]
    refine ⟨?_, rfl⟩
    exact le_min (baseScoreOf_le_one kb hcons q item index hidx)
      (le_add_of_nonneg_right (calculateBoosts_total_nonneg _ _ _ _))
  · intro hb
    rw [scoreEntry_nonpos kb q _ _ _ item index hb]
    exact ⟨rfl, rfl⟩
  · obtain ⟨h1, h2, h3, h4, h5, _⟩ :=
      calculateBoosts_nonneg item (extractQueryWords query) (detectIntent query)
        (isProceduralQuery query)
    exact ⟨h1, h2, h3, h4, h5⟩

/-- Witness for C1 at a concrete input: the loaded one-item knowledge base
`kbW`, the zero query vector and the query `"hello"`; the item's base score
is `0`, so its score entry carries the base score unchanged. -/
theorem C1_score_computation_bounds_witness :
    magnitudesConsistent kbW ∧ kbW.items[0]? = some itemZ ∧
    (scoreEntry kbW [(0 : ℝ)] (extractQueryWords "hello") (detectIntent "hello")
      (isProceduralQuery "hello") itemZ 0).score ≤ 1 ∧
    (scoreEntry kbW [(0 : ℝ)] (extractQueryWords "hello") (detectIntent "hello")
      (isProceduralQuery "hello") itemZ 0).score = baseScoreOf kbW [(0 : ℝ)] itemZ 0 := by
  have hcons : magnitudesConsistent kbW := load_valid_consistent {} [itemZ]
  have hidx := kbW_item0
  have h := C1_score_computation_bounds kbW [(0 : ℝ)] "hello" 0 itemZ hcons hidx
  have hb0 : baseScoreOf kbW [(0 : ℝ)] itemZ 0 ≤ 0 := by
    rw [baseScoreOf_kbW]
  exact ⟨hcons, hidx, h.2.1, (h.2.2.2.1 hb0).1⟩

/-- C2.  The ranking pipeline: on a loaded store `findTopMatches` is
exactly sort-descending, truncate to the first `k`, then filter by the
similarity threshold; consequently the output length is at most
`min k (number of score entries strictly above the threshold)`, every
returned entry is strictly above the threshold, and on an unloaded store
the output is empty. -/
theorem C2_ranker_pipeline :
    ∀ (kb : KnowledgeBase) (q : List ℝ) (query : String) (k : Nat),
      (kb.isLoaded = true →
        findTopMatches kb q query k =
          ((sortByScoreDesc (computeScores kb q query)).take k).filter
            fun m => decide (SIMILARITY_THRESHOLD < m.score)) ∧
      (kb.isLoaded = false → findTopMatches kb q query k = []) ∧
      (findTopMatches kb q query k).length ≤
        min k ((computeScores kb q query).countP
          fun m => decide (SIMILARITY_THRESHOLD < m.score)) ∧
      ∀ m ∈ findTopMatches kb q query k, SIMILARITY_THRESHOLD < m.score := by
  intro kb q query k
  have heqT : kb.isLoaded = true →
      findTopMatches kb q query k =
        ((sortByScoreDesc (computeScores kb q query)).take k).filter
          fun m => decide (SIMILARITY_THRESHOLD < m.score) := by
    intro h
    unfold findTopMatches
    rw [h]
    rfl
  have heqF : kb.isLoaded = false → findTopMatches kb q query k = [] := by
    intro h
    unfold findTopMatches
    rw [h]
    rfl
  refine ⟨heqT, heqF, ?_, ?_⟩
  · cases hb : kb.isLoaded with
    | false =>
      rw [heqF hb]
      exact Nat.zero_le _
    | true =>
      rw [heqT hb]
      refine le_min ?_ ?_
      · exact le_trans (List.length_filter_le _ _)
          (by rw [List.length_take]; exact min_le_left _ _)
      · rw [List.countP_eq_length_filter]
        have hsub := List.Sublist.filter
          (fun m : ScoredMatch => decide (SIMILARITY_THRESHOLD < m.score))
          (List.take_sublist k (sortByScoreDesc (computeScores kb q query)))
        have hperm := List.Perm.filter
          (fun m : ScoredMatch => decide (SIMILARITY_THRESHOLD < m.score))
          (sortByKeyDesc_perm (fun m : ScoredMatch => m.score)
            (computeScores kb q query))
        exact le_trans hsub.length_le (le_of_eq hperm.length_eq)
  · intro m hm
    cases hb : kb.isLoaded with
    | false =>
      rw [heqF hb] at hm
      exact absurd hm (List.not_mem_nil m)
    | true =>
      rw [heqT hb] at hm
      exact of_decide_eq_true (List.mem_filter.1 hm).2

/-- Witness for C2 at the loaded one-item knowledge base `kbW`. -/
theorem C2_ranker_pipeline_witness :
    kbW.isLoaded = true ∧
    findTopMatches kbW [(0 : ℝ)] "hello" 8 =
      ((sortByScoreDesc (computeScores kbW [(0 : ℝ)] "hello")).take 8).filter
        (fun m => decide (SIMILARITY_THRESHOLD < m.score)) ∧
    (findTopMatches kbW [(0 : ℝ)] "hello" 8).length ≤
      min 8 ((computeScores kbW [(0 : ℝ)] "hello").countP
        fun m => decide (SIMILARITY_THRESHOLD < m.score)) := by
  have h := C2_ranker_pipeline kbW [(0 : ℝ)] "hello" 8
  have hl : kbW.isLoaded = true := load_valid_isLoaded {} [itemZ]
  exact ⟨hl, h.1 hl, h.2.2.1⟩

/-- C3.  `cosineSimilarity` returns exactly `-1` when either vector is
absent or the lengths differ; otherwise it divides the dot product by the
magnitude product, substituting `1e-10` exactly when that product is zero —
in real arithmetic a zero query vector then yields exactly `0`, not an
undefined value (the function is total). -/
theorem C3_cosineSimilarity_contract :
    ∀ (q v : Option (List ℝ)) (m : ℝ),
      (q = none → cosineSimilarity q v m = -1) ∧
      (v = none → cosineSimilarity q v m = -1) ∧
      (∀ qv vv, q = some qv → v = some vv → qv.length ≠ vv.length →
        cosineSimilarity q v m = -1) ∧
      (∀ qv vv, q = some qv → v = some vv → qv.length = vv.length →
        cosineSimilarity q v m =
          dotProduct qv vv /
            (if calculateMagnitude qv * m = 0 then 1e-10
             else calculateMagnitude qv * m) ∧
        (calculateMagnitude qv * m = 0 →
          cosineSimilarity q v m = dotProduct qv vv / 1e-10) ∧
        (sumSq qv = 0 → cosineSimilarity q v m = 0)) := by
  intro q v m
  refine ⟨?_, ?_, ?_, ?_⟩
  · rintro rfl
    cases v <;> rfl
  · rintro rfl
    cases q <;> rfl
  · rintro qv vv rfl rfl hlen
    exact cosineSimilarity_len_mismatch qv vv m hlen
  · rintro qv vv rfl rfl hlen
    refine ⟨cosineSimilarity_eq qv vv m hlen, ?_, ?_⟩
    · intro hd
      rw [cosineSimilarity_eq qv vv m hlen, if_pos hd]
    · intro hz
      rw [cosineSimilarity_eq qv vv m hlen,
        dotProduct_zero_left qv vv ((sumSq_eq_zero_iff qv).1 hz), zero_div]

/-- Witness for C3 at concrete inputs: an absent query vector, a length
mismatch, and the zero query vector. -/
theorem C3_cosineSimilarity_contract_witness :
    cosineSimilarity none (some [(1 : ℝ)]) 5 = -1 ∧
    cosineSimilarity (some [(1 : ℝ), 2]) (some [(3 : ℝ)]) 5 = -1 ∧
    cosineSimilarity (some [(0 : ℝ)]) (some [(0 : ℝ)]) 7 = 0 := by
  refine ⟨(C3_cosineSimilarity_contract none (some [(1 : ℝ)]) 5).1 rfl, ?_, ?_⟩
  · exact (C3_cosineSimilarity_contract (some [(1 : ℝ), 2]) (some [(3 : ℝ)]) 5).2.2.1
      [(1 : ℝ), 2] [(3 : ℝ)] rfl rfl (by norm_num)
  · exact ((C3_cosineSimilarity_contract (some [(0 : ℝ)]) (some [(0 : ℝ)]) 7).2.2.2
      [(0 : ℝ)] [(0 : ℝ)] rfl rfl rfl).2.2 (by simp [sumSq])

/-- C4.  `load` on a failing source (missing file or corrupt data) never
raises — the model is a total function — and resets the store to the empty
state with `isLoaded = false`; afterwards `findTopMatches` returns the
empty sequence for every query embedding, query text and `k`. -/
theorem C4_load_failure_degrades :
    ∀ (kb : KnowledgeBase) (src : LoadSource),
      src = .missing ∨ src = .corrupt →
      (load kb src).items = [] ∧ (load kb src).magnitudes = [] ∧
      (load kb src).isLoaded = false ∧
      ∀ (q : List ℝ) (query : String) (k : Nat),
        findTopMatches (load kb src) q query k = [] := by
  intro kb src h
  have hload : (load kb src).items = [] ∧ (load kb src).magnitudes = [] ∧
      (load kb src).isLoaded = false := by
    rcases h with rfl | rfl <;> exact ⟨rfl, rfl, rfl⟩
  refine ⟨hload.1, hload.2.1, hload.2.2, ?_⟩
  intro q query k
  unfold findTopMatches
  rw [hload.2.2]
  rfl

/-- Witness for C4: a missing knowledge file on a fresh store. -/
theorem C4_load_failure_degrades_witness :
    (load {} .missing).items = [] ∧ (load {} .missing).isLoaded = false ∧
    findTopMatches (load {} .missing) [(1 : ℝ)] "where are you based" 8 = [] := by
  have h := C4_load_failure_degrades {} .missing (Or.inl rfl)
  exact ⟨h.1, h.2.2.1, h.2.2.2 [(1 : ℝ)] "where are you based" 8⟩

/-- C8.  The response cache: `set` then `get` within the TTL returns the
stored value; a `get` strictly after the TTL deletes the entry and reports
a miss; in general a present entry is returned exactly when its age is at
most the TTL, and evicted otherwise. -/
theorem C8_cache_set_get_ttl :
    ∀ (α : Type) (qc : QueryCache α) (k : String) (v : α) (now later : Nat),
      (later - now ≤ qc.ttl →
        (QueryCache.get (QueryCache.set qc k v now) k later).1 = some v) ∧
      (qc.ttl < later - now →
        (QueryCache.get (QueryCache.set qc k v now) k later).1 = none ∧
        (QueryCache.get (QueryCache.set qc k v now) k later).2.cache k = none) ∧
      (∀ e : CacheEntry α, qc.cache k = some e →
        (qc.ttl < now - e.timestamp →
          (QueryCache.get qc k now).1 = none ∧
          (QueryCache.get qc k now).2.cache k = none) ∧
        (now - e.timestamp ≤ qc.ttl →
          (QueryCache.get qc k now).1 = some e.data ∧
          (QueryCache.get qc k now).2 = qc)) := by
  intro α qc k v now later
  have hget : ∀ (qc2 : QueryCache α) (e : CacheEntry α) (t : Nat),
      qc2.cache k = some e →
      QueryCache.get qc2 k t =
        if qc2.ttl < t - e.timestamp then
          (none, { qc2 with cache := fun k2 => if k2 = k then none else qc2.cache k2 })
        else (some e.data, qc2) := by
    intro qc2 e t he
    unfold QueryCache.get
    rw [he]
  have hset : (QueryCache.set qc k v now).cache k =
      some { timestamp := now, data := v } := by
    simp [QueryCache.set]
  have hsetttl : (QueryCache.set qc k v now).ttl = qc.ttl := rfl
  refine ⟨?_, ?_, ?_⟩
  · intro h
    rw [hget _ _ _ hset, hsetttl, if_neg (not_lt.2 h)]
  · intro h
    rw [hget _ _ _ hset, hsetttl, if_pos h]
    exact ⟨rfl, by simp⟩
  · intro e he
    constructor
    · intro h
      rw [hget _ _ _ he, if_pos h]
      exact ⟨rfl, by simp⟩
    · intro h
      rw [hget _ _ _ he, if_neg (not_lt.2 h)]
      exact ⟨rfl, rfl⟩

/-- Witness for C8: a fresh entry is returned at the TTL boundary and
evicted one tick later. -/
theorem C8_cache_set_get_ttl_witness :
    (QueryCache.get (QueryCache.set ({ ttl := CACHE_TTL } : QueryCache Nat)
      "a" 42 0) "a" CACHE_TTL).1 = some 42 ∧
    (QueryCache.get (QueryCache.set ({ ttl := CACHE_TTL } : QueryCache Nat)
      "a" 42 0) "a" (CACHE_TTL + 1)).1 = none := by
  refine ⟨(C8_cache_set_get_ttl Nat { ttl := CACHE_TTL } "a" 42 0 CACHE_TTL).1
    (by norm_num), ?_⟩
  exact ((C8_cache_set_get_ttl Nat { ttl := CACHE_TTL } "a" 42 0
    (CACHE_TTL + 1)).2.1 (by norm_num)).1

/-! ### The substring relation and `strContains` -/


theorem listContains_iff (needle : List Char) :
    ∀ hay : List Char, listContains hay needle = true ↔
      ∃ pre post : List Char, hay = pre ++ needle ++ post := by
  intro hay
  induction hay with
  | nil =>
    rw [listContains]
    constructor
    · intro h
      have h2 : needle.isPrefixOf [] = true := by
        by_contra hne
        rw [if_neg (by simp [hne])] at h
        exact Bool.false_ne_true h
      have : needle <+: ([] : List Char) := List.isPrefixOf_iff_prefix.1 h2
      have hnil : needle = [] := List.prefix_nil.1 this
      exact ⟨[], [], by simp [hnil]⟩
    · rintro ⟨pre, post, hsplit⟩
      have hlen := congrArg List.length hsplit
      simp only [List.length_nil, List.length_append] at hlen
      have hnil : needle = [] := List.length_eq_zero.1 (by omega)
      rw [if_pos (List.isPrefixOf_iff_prefix.2 (by simp [hnil]))]
  | cons c t ih =>
    rw [listContains]
    by_cases hp : needle.isPrefixOf (c :: t) = true
    · rw [if_pos hp]
      simp only [true_iff]
      obtain ⟨post, hpost⟩ := List.isPrefixOf_iff_prefix.1 hp
      exact ⟨[], post, by simp [hpost]⟩
    · rw [if_neg hp]
      rw [ih]
      constructor
      · rintro ⟨pre, post, hsplit⟩
        exact ⟨c :: pre, post, by simp [hsplit]⟩
      · rintro ⟨pre, post, hsplit⟩
        cases pre with
        | nil =>
          exfalso
          apply hp
          exact List.isPrefixOf_iff_prefix.2 ⟨post, by simpa using hsplit.symm⟩
        | cons c2 pre2 =>
          have hc : c2 = c ∧ t = pre2 ++ needle ++ post := by
            have := hsplit
            simp only [List.cons_append, List.cons.injEq] at this
            exact ⟨this.1.symm, this.2⟩
          exact ⟨pre2, post, hc.2⟩

theorem strContains_iff (hay needle : String) :
    strContains hay needle = true ↔ IsSubstringOf needle hay :=
  listContains_iff needle.data hay.data

/-- C7.  The keyword boost: a metadata keyword matches exactly when it is a
substring of some extracted query token or that token is a substring of the
(lower-cased) keyword, and the component equals
`min 0.3 (matchCount * KEYWORD_BOOST)`.  For the Scenario-B item (priority
`"high"`, exactly 2 of its 3 keywords matching, base score `0.35`) the final
score is `min 1 (0.35 + min 0.3 (2 * KEYWORD_BOOST) + priorityWeight(high) +
the other components)`. -/
theorem C7_keyword_boost :
    (∀ (metadata : Metadata) (queryWords : List String) (kws : List String),
      metadata.keywords = some kws →
      keywordBoost metadata queryWords =
        min 0.3 (((kws.filter fun kw => keywordMatches queryWords kw).length : ℝ)
          * KEYWORD_BOOST)) ∧
    (∀ (queryWords : List String) (kw : String),
      keywordMatches queryWords kw = true ↔
        ∃ word ∈ queryWords,
          IsSubstringOf (jsToLower kw) word ∨ IsSubstringOf word (jsToLower kw)) ∧
    (∀ (kb : KnowledgeBase) (q : List ℝ) (query : String) (item : Item)
       (index : Nat) (md : Metadata) (k1 k2 k3 : String),
      item.metadata = some md → md.priority = some "high" →
      md.keywords = some [k1, k2, k3] →
      ([k1, k2, k3].filter fun kw =>
        keywordMatches (extractQueryWords query) kw).length = 2 →
      baseScoreOf kb q item index = 0.35 →
      (scoreEntry kb q (extractQueryWords query) (detectIntent query)
        (isProceduralQuery query) item index).score =
        min 1 (0.35 + (min 0.3 (2 * KEYWORD_BOOST) +
          intentBoost md (detectIntent query) +
          categoryBoost item (isProceduralQuery query) +
          proceduralBoost item (isProceduralQuery query) + 0.1))) := by
  refine ⟨?_, ?_, ?_⟩
  · intro metadata queryWords kws h
    unfold keywordBoost
    rw [h]
  · intro queryWords kw
    unfold keywordMatches
    rw [List.any_eq_true]
    constructor
    · rintro ⟨word, hw, hmatch⟩
      rcases Bool.or_eq_true_iff.1 hmatch with hm | hm
      · exact ⟨word, hw, Or.inl (strContains_iff word (jsToLower kw) |>.1 hm)⟩
      · exact ⟨word, hw, Or.inr (strContains_iff (jsToLower kw) word |>.1 hm)⟩
    · rintro ⟨word, hw, hm | hm⟩
      · exact ⟨word, hw, Bool.or_eq_true_iff.2
          (Or.inl ((strContains_iff word (jsToLower kw)).2 hm))⟩
      · exact ⟨word, hw, Bool.or_eq_true_iff.2
          (Or.inr ((strContains_iff (jsToLower kw) word).2 hm))⟩
  · intro kb q query item index md k1 k2 k3 hmd hpr hkw hcount hbase
    have hpos : (0 : ℝ) < baseScoreOf kb q item index := by
      rw [hbase]; norm_num
    rw [scoreEntry_pos kb q _ _ _ item index hpos]
    have hmdD : item.metadata.getD {} = md := by rw [hmd]; rfl
    have hkb : keywordBoost md (extractQueryWords query) =
        min 0.3 (2 * KEYWORD_BOOST) := by
      unfold keywordBoost
      rw [hkw]
      show min 0.3 ((([k1, k2, k3].filter fun kw =>
        keywordMatches (extractQueryWords query) kw).length : ℝ) * KEYWORD_BOOST) = _
      rw [hcount]
      norm_num
    have hprio : priorityBoost md = 0.1 := by
      unfold priorityBoost
      rw [hpr]
      simp
    show min 1 (baseScoreOf kb q item index +
        (calculateBoosts item (extractQueryWords query) (detectIntent query)
          (isProceduralQuery query)).total) = _
    rw [calculateBoosts_total, hmdD, hkb, hprio, hbase]


theorem baseScoreOf_kbB : baseScoreOf kbB [(1 : ℝ)] itemB 0 = 0.35 := by
  rw [baseScoreOf_some kbB [(1 : ℝ)] itemB 0 [(7 / 20 : ℝ)] rfl,
    cosineSimilarity_eq [(1 : ℝ)] [(7 / 20 : ℝ)] (kbB.magnitudes.getD 0 0) rfl]
  have hmag : calculateMagnitude [(1 : ℝ)] = 1 := by
    unfold calculateMagnitude
    have : sumSq [(1 : ℝ)] = 1 := by simp [sumSq]
    rw [this, Real.sqrt_one]
  have hm : kbB.magnitudes.getD 0 0 = 1 := rfl
  have hd : dotProduct [(1 : ℝ)] [(7 / 20 : ℝ)] = 7 / 20 := by
    simp [dotProduct]
  rw [hm, hmag, hd]
  norm_num

theorem C7_keyword_boost_witness :
    (keywordMatches ["storage", "warehouse", "quote"] "storage" = true ↔
      ∃ word ∈ ["storage", "warehouse", "quote"],
        IsSubstringOf (jsToLower "storage") word ∨
        IsSubstringOf word (jsToLower "storage")) ∧
    (scoreEntry kbB [(1 : ℝ)]
      (extractQueryWords "storage warehouse quote")
      (detectIntent "storage warehouse quote")
      (isProceduralQuery "storage warehouse quote") itemB 0).score =
      min 1 (0.35 + (min 0.3 (2 * KEYWORD_BOOST) +
        intentBoost { keywords := some ["storage", "warehouse", "xq"],
                      priority := some "high" }
          (detectIntent "storage warehouse quote") +
        categoryBoost itemB (isProceduralQuery "storage warehouse quote") +
        proceduralBoost itemB (isProceduralQuery "storage warehouse quote") +
        0.1)) := by
  constructor
  · exact (C7_keyword_boost.2.1 ["storage", "warehouse", "quote"] "storage")
  · refine C7_keyword_boost.2.2 kbB [(1 : ℝ)] "storage warehouse quote" itemB 0
      { keywords := some ["storage", "warehouse", "xq"],
        priority := some "high" } "storage" "warehouse" "xq" rfl rfl rfl ?_
      baseScoreOf_kbB
    decide

/-! ### Ordering facts about the descending sort, for the tie-break claim -/

theorem sortByKeyDesc_ordered {α κ : Type} [LinearOrder κ] (key : α → κ)
    (l : List α) (i j : Nat) (x y : α) (hij : i < j)
    (hx : (sortByKeyDesc key l)[i]? = some x)
    (hy : (sortByKeyDesc key l)[j]? = some y) : key y ≤ key x := by
  have hp := sortByKeyDesc_pairwise key l
  rw [List.pairwise_iff_get] at hp
  obtain ⟨hi, hxi⟩ := List.getElem?_eq_some.1 hx
  obtain ⟨hj, hyj⟩ := List.getElem?_eq_some.1 hy
  have h := hp ⟨i, hi⟩ ⟨j, hj⟩ hij
  rw [List.get_eq_getElem, List.get_eq_getElem] at h
  simp only at h
  rw [hxi, hyj] at h
  exact h

/-- C5.  The first variant's `prioritizeMatches`: the output is a
permutation of the input, sorted (descending) by the lexicographic key
(procedural-marker flag when the query is procedural, then score, then
priority weight `high=3, medium=2, low=1, absent=1`); consequently, for a
procedural query, a candidate whose answer contains a procedural marker is
placed strictly before an equally-scored candidate without one, at every
pair of positions. -/
theorem C5_procedural_tiebreak :
    ∀ (l : List ScoredMatch) (isProcedural : Bool),
      (prioritizeMatchesA l isProcedural).Perm l ∧
      (prioritizeMatchesA l isProcedural).Pairwise
        (fun a b : ScoredMatch =>
          sortKeyA isProcedural b ≤ sortKeyA isProcedural a) ∧
      (∀ a b : ScoredMatch, hasProcMarker a = true → hasProcMarker b = false →
        a.score = b.score →
        ∀ i j : Nat, (prioritizeMatchesA l true)[i]? = some b →
          (prioritizeMatchesA l true)[j]? = some a → j < i) := by
  intro l isProcedural
  refine ⟨sortByKeyDesc_perm _ l, sortByKeyDesc_pairwise _ l, ?_⟩
  intro a b hma hmb hsc i j hib hja
  have hklt : sortKeyA true b < sortKeyA true a := by
    unfold sortKeyA
    rw [hma, hmb]
    rw [Prod.Lex.lt_iff]
    left
    show (true && false) < (true && true)
    decide
  rcases Nat.lt_trichotomy j i with h | h | h
  · exact h
  · exfalso
    subst h
    rw [hib] at hja
    have hab : b = a := Option.some_inj.1 hja
    rw [hab, hma] at hmb
    exact Bool.noConfusion hmb
  · exfalso
    have hle : sortKeyA true a ≤ sortKeyA true b :=
      sortByKeyDesc_ordered (sortKeyA true) l i j b a h hib hja
    exact absurd hle (not_le.2 hklt)


/-- Witness for C5: on the concrete pair, the procedural-marker match is
sorted to position 0 and the other to position 1, so every position of the
marker-free match is after every position of the marker match. -/
theorem C5_procedural_tiebreak_witness :
    hasProcMarker matchP = true ∧ hasProcMarker matchN = false ∧
    matchP.score = matchN.score ∧
    (prioritizeMatchesA [matchN, matchP] true)[0]? = some matchP ∧
    (prioritizeMatchesA [matchN, matchP] true)[1]? = some matchN ∧
    (0 : Nat) < 1 := by
  have hpa : hasProcMarker matchP = true := by decide
  have hpb : hasProcMarker matchN = false := by decide
  have hle : ¬ (sortKeyA true matchP ≤ sortKeyA true matchN) := by
    unfold sortKeyA
    rw [hpa, hpb, Prod.Lex.le_iff]
    push_neg
    refine ⟨by decide, fun h => absurd h (by decide)⟩
  have hout : prioritizeMatchesA [matchN, matchP] true = [matchP, matchN] := by
    unfold prioritizeMatchesA
    simp [sortByKeyDesc, insertByKeyDesc, hle]
  refine ⟨hpa, hpb, rfl, ?_, ?_, ?_⟩
  · rw [hout]; rfl
  · rw [hout]; rfl
  · exact (C5_procedural_tiebreak [matchN, matchP] true).2.2 matchP matchN hpa hpb
      rfl 1 0 (by rw [hout]; rfl) (by rw [hout]; rfl)

/-! ### The second variant's context-assembly loop: step lemmas -/

theorem relatedStep_emitted (acc : BuildStateB) (r : RelatedQ) :
    (relatedStep acc r).emitted = acc.emitted := by
  unfold relatedStep
  split <;> rfl

theorem foldl_relatedStep_emitted (rs : List RelatedQ) :
    ∀ acc : BuildStateB, (rs.foldl relatedStep acc).emitted = acc.emitted := by
  induction rs with
  | nil => intro acc; rfl
  | cons r t ih =>
    intro acc
    rw [List.foldl_cons, ih, relatedStep_emitted]

theorem addRelatedB_emitted (items : List Item) (m : ScoredMatch)
    (st : BuildStateB) : (addRelatedB items m st).emitted = st.emitted := by
  unfold addRelatedB
  split
  · split
    · exact foldl_relatedStep_emitted _ _
    · rfl
  · rfl

theorem emitStep_emitted (st : BuildStateB) (m : ScoredMatch) :
    (emitStep st m).emitted = st.emitted ++ [m] := rfl

/-- On an empty item list the related-question accumulation is the
identity. -/
theorem addRelatedB_nil (m : ScoredMatch) (st : BuildStateB) :
    addRelatedB [] m st = st := by
  unfold addRelatedB
  split <;> rfl

/-- The emitted list only ever grows as the loop proceeds. -/
theorem buildLoopB_emitted_mono (items : List Item) :
    ∀ (l : List ScoredMatch) (st : BuildStateB),
      ∃ extra, (buildLoopB items l st).emitted = st.emitted ++ extra := by
  intro l
  induction l with
  | nil =>
    intro st
    exact ⟨[], by simp [buildLoopB]⟩
  | cons m rest ih =>
    intro st
    simp only [buildLoopB]
    by_cases h : (m.item.metadata.getD {}).intent ∈ st.seenIntents ∧ m.score < 0.7
    · rw [if_pos h]
      obtain ⟨extra, he⟩ := ih { st with i := st.i + 1 }
      exact ⟨extra, he⟩
    · rw [if_neg h]
      split
      · refine ⟨[m], ?_⟩
        rw [addRelatedB_emitted, emitStep_emitted]
      · obtain ⟨extra, he⟩ :=
          ih { addRelatedB items m (emitStep st m) with i := st.i + 1 }
        refine ⟨[m] ++ extra, ?_⟩
        rw [he]
        show (addRelatedB items m (emitStep st m)).emitted ++ extra = _
        rw [addRelatedB_emitted, emitStep_emitted, List.append_assoc]

/-- C6, amended.  When the second variant's context assembler visits a
match whose metadata intent was already emitted, it skips the match exactly
when its score is strictly below the `0.7` confidence bar; a duplicate
intent with score at least `0.7` (including exactly `0.7`) is still
appended to the context. -/
theorem C6_intent_dedup_rule :
    ∀ (items : List Item) (m : ScoredMatch) (rest : List ScoredMatch)
      (st : BuildStateB),
      (m.item.metadata.getD {}).intent ∈ st.seenIntents →
      ((m.score < 0.7 →
        buildLoopB items (m :: rest) st =
          buildLoopB items rest { st with i := st.i + 1 }) ∧
       (0.7 ≤ m.score →
        m ∈ (buildLoopB items (m :: rest) st).emitted)) := by
  intro items m rest st hseen
  constructor
  · intro hlt
    simp only [buildLoopB]
    rw [if_pos ⟨hseen, hlt⟩]
  · intro hge
    simp only [buildLoopB]
    rw [if_neg fun hc => absurd hc.2 (not_lt.2 hge)]
    split
    · rw [addRelatedB_emitted, emitStep_emitted]
      exact List.mem_append_right _ (by simp)
    · obtain ⟨extra, he⟩ := buildLoopB_emitted_mono items rest
        { addRelatedB items m (emitStep st m) with i := st.i + 1 }
      rw [he]
      show m ∈ (addRelatedB items m (emitStep st m)).emitted ++ extra
      rw [addRelatedB_emitted, emitStep_emitted]
      exact List.mem_append_left _ (List.mem_append_right _ (by simp))


/-- Witness for the amended C6: with intent `"i"` already seen, the
score-`0.5` match is skipped (state equation) and the score-`0.7` match is
still emitted. -/
theorem C6_intent_dedup_rule_witness :
    (cm3.item.metadata.getD {}).intent ∈ stSeen.seenIntents ∧
    buildLoopB [] [cm3] stSeen =
      buildLoopB [] [] { stSeen with i := stSeen.i + 1 } ∧
    cm2 ∈ (buildLoopB [] [cm2] stSeen).emitted := by
  have hseen3 : (cm3.item.metadata.getD {}).intent ∈ stSeen.seenIntents := by
    show some "i" ∈ [some "i"]
    simp
  have hseen2 : (cm2.item.metadata.getD {}).intent ∈ stSeen.seenIntents := by
    show some "i" ∈ [some "i"]
    simp
  refine ⟨hseen3, ?_, ?_⟩
  · exact (C6_intent_dedup_rule [] cm3 [] stSeen hseen3).1
      (by show (0.5 : ℝ) < 0.7; norm_num)
  · exact (C6_intent_dedup_rule [] cm2 [] stSeen hseen2).2
      (by show (0.7 : ℝ) ≤ 0.7; norm_num)

theorem prioritizeMatchesB_cm : prioritizeMatchesB [cm1, cm2] = [cm1, cm2] := by
  have hle : sortKeyB cm2 ≤ sortKeyB cm1 := by
    unfold sortKeyB
    rw [Prod.Lex.le_iff]
    left
    show cm2.score < cm1.score
    show (0.7 : ℝ) < 0.75
    norm_num
  unfold prioritizeMatchesB
  simp [sortByKeyDesc, insertByKeyDesc, hle]

/-- A non-skipped, non-stopping visit: the loop appends the block and
moves on with the index incremented. -/
theorem buildLoopB_go (items : List Item) (m : ScoredMatch)
    (rest : List ScoredMatch) (st : BuildStateB)
    (h1 : ¬ ((m.item.metadata.getD {}).intent ∈ st.seenIntents ∧ m.score < 0.7))
    (h2 : ¬ ((0.8 : ℝ) < m.score)) :
    buildLoopB items (m :: rest) st =
      buildLoopB items rest
        { addRelatedB items m (emitStep st m) with i := st.i + 1 } := by
  simp only [buildLoopB]
  rw [if_neg h1, if_neg]
  intro hx
  rw [decide_eq_false h2, Bool.false_and] at hx
  exact Bool.false_ne_true hx

/-- Counterexample to C6 as stated: both matches carry intent `"i"`; the
second has score exactly `0.7`, which does not exceed the `0.7` bar, yet
the assembler appends it (the emitted list is `[cm1, cm2]`, not `[cm1]`):
the source admits duplicates at `score ≥ 0.7`, not only `score > 0.7`. -/
theorem C6_dedup_boundary_counterexample :
    (cm1.item.metadata.getD {}).intent = some "i" ∧
    (cm2.item.metadata.getD {}).intent = some "i" ∧
    cm2.score = 0.7 ∧ ¬ ((0.7 : ℝ) < cm2.score) ∧
    (buildB [cm1, cm2] []).emitted = [cm1, cm2] := by
  refine ⟨rfl, rfl, rfl, by show ¬ ((0.7 : ℝ) < 0.7); norm_num, ?_⟩
  have hbuild : buildB [cm1, cm2] [] = buildLoopB [] [cm1, cm2] {} := by
    unfold buildB
    rw [prioritizeMatchesB_cm]
  rw [hbuild,
    buildLoopB_go [] cm1 [cm2] {} (fun hc => absurd hc.1 (List.not_mem_nil _))
      (by show ¬ ((0.8 : ℝ) < 0.75); norm_num),
    buildLoopB_go [] cm2 [] _
      (fun hc => absurd hc.2 (by show ¬ ((0.7 : ℝ) < 0.7); norm_num))
      (by show ¬ ((0.8 : ℝ) < 0.7); norm_num)]
  simp [buildLoopB, addRelatedB_emitted, emitStep_emitted]

/-! ### `processQuery`: shape of the history and cache updates -/

theorem pushCapped_length_le (l : List HistoryEntry) (e : HistoryEntry) :
    (pushCapped l e).length ≤ MAX_HISTORY_LENGTH * 2 := by
  unfold pushCapped
  dsimp only
  split
  · rename_i h
    rw [List.length_drop]
    omega
  · rename_i h
    omega

theorem setHistory_history (st : ChatBotState) (sessionId : String)
    (l : List HistoryEntry) (s : String) :
    (setHistory st sessionId l).history s =
      if s = sessionId then some l else st.history s := rfl

/-- `get` leaves every key other than the looked-up one exactly as it was. -/
theorem queryCacheGet_cache_other {α : Type} (qc : QueryCache α) (key : String)
    (now : Nat) (k : String) (hk : k ≠ key) :
    (QueryCache.get qc key now).2.cache k = qc.cache k := by
  unfold QueryCache.get
  cases hqc : qc.cache key with
  | none => rfl
  | some e =>
    simp only
    split
    · simp [hk]
    · rfl

/-- At the looked-up key, `get` either changes nothing or — only when the
present entry's age exceeds the TTL — evicts it. -/
theorem queryCacheGet_cache_key {α : Type} (qc : QueryCache α) (key : String)
    (now : Nat) :
    (QueryCache.get qc key now).2.cache key = qc.cache key ∨
    (∃ e, qc.cache key = some e ∧ qc.ttl < now - e.timestamp ∧
      (QueryCache.get qc key now).2.cache key = none) := by
  unfold QueryCache.get
  cases hqc : qc.cache key with
  | none => exact Or.inl hqc
  | some e =>
    simp only
    split
    · rename_i hlt
      exact Or.inr ⟨e, rfl, hlt, by simp⟩
    · exact Or.inl hqc

/-- `processQuery` never touches the history of another session. -/
theorem processQuery_history_other (helpers : TextHelpers) (st0 : ChatBotState)
    (question sessionId : String) (env : RequestEnv) (s : String)
    (hs : s ≠ sessionId) :
    (processQuery helpers st0 question sessionId env).2.history s =
      st0.history s := by
  unfold processQuery
  dsimp only
  split
  · simp [setHistory, hs]
  · split
    · simp [setHistory, hs]
    · split
      · simp [setHistory, hs]
      · split
        · simp [setHistory, hs]
        · dsimp only
          split
          · simp [setHistory, hs]
          · simp [setHistory, hs]

/-- The named session's history after `processQuery` is either the list the
call started from (cache-hit path) or a capped push of it. -/
theorem processQuery_history_named (helpers : TextHelpers) (st0 : ChatBotState)
    (question sessionId : String) (env : RequestEnv) (l : List HistoryEntry)
    (hl : (processQuery helpers st0 question sessionId env).2.history sessionId =
      some l) :
    l = (st0.history sessionId).getD [] ∨
    l.length ≤ MAX_HISTORY_LENGTH * 2 := by
  unfold processQuery at hl
  dsimp only at hl
  split at hl
  · right
    simp only [setHistory, if_pos rfl] at hl
    rw [← Option.some_inj.1 hl]
    exact pushCapped_length_le _ _
  · split at hl
    · left
      simp only [setHistory, if_pos rfl] at hl
      exact (Option.some_inj.1 hl).symm
    · split at hl
      · right
        simp only [setHistory, if_pos rfl] at hl
        rw [← Option.some_inj.1 hl]
        exact pushCapped_length_le _ _
      · split at hl
        · right
          simp only [setHistory, if_pos rfl] at hl
          rw [← Option.some_inj.1 hl]
          exact pushCapped_length_le _ _
        · dsimp only at hl
          split at hl
          · right
            simp only [setHistory, if_pos rfl] at hl
            rw [← Option.some_inj.1 hl]
            exact pushCapped_length_le _ _
          · right
            simp only [setHistory, if_pos rfl] at hl
            rw [← Option.some_inj.1 hl]
            exact pushCapped_length_le _ _

/-- After `processQuery`, the cache is exactly the initial cache (greeting
path), or exactly the initial cache after the single `get` lookup at the
normalized question key, unless the call returned a successful response
with a non-empty match list — the only path that writes to the cache. -/
theorem processQuery_cache_local (helpers : TextHelpers) (st0 : ChatBotState)
    (question sessionId : String) (env : RequestEnv) :
    (processQuery helpers st0 question sessionId env).2.cache = st0.cache ∨
    (processQuery helpers st0 question sessionId env).2.cache =
      (QueryCache.get st0.cache (jsToLower (jsTrim question)) env.now).2 ∨
    (∃ resp, (processQuery helpers st0 question sessionId env).1 =
        Except.ok resp ∧ resp.matchList ≠ []) := by
  unfold processQuery
  dsimp only
  split
  · exact Or.inl rfl
  · split
    · exact Or.inr (Or.inl rfl)
    · split
      · exact Or.inr (Or.inl rfl)
      · split
        · exact Or.inr (Or.inl rfl)
        · dsimp only
          split
          · rename_i hcond
            refine Or.inr (Or.inr ⟨_, rfl, ?_⟩)
            intro hmap
            exact absurd (List.map_eq_nil_iff.1 hmap) (List.length_pos.1 hcond.1)
          · exact Or.inr (Or.inl rfl)

/-- C9, amended.  On every run whose outcome is a raised provider error or
a successful response with an empty match list, `processQuery` writes no
cache entry: every key other than the normalized question key
(`jsToLower (jsTrim question)`) keeps exactly its prior value, and the
question key either keeps its prior value or — only when it held an entry
whose age exceeded the TTL — is evicted by the initial lookup.  The
as-stated "cache left unchanged" fails only on that eviction
(`C9_cache_eviction_counterexample`). -/
theorem C9_cache_write_policy :
    ∀ (helpers : TextHelpers) (st0 : ChatBotState) (question sessionId : String)
      (env : RequestEnv),
      ((∃ msg, (processQuery helpers st0 question sessionId env).1 =
          Except.error msg) ∨
       (∃ resp, (processQuery helpers st0 question sessionId env).1 =
          Except.ok resp ∧ resp.matchList = [])) →
      (∀ k, k ≠ jsToLower (jsTrim question) →
        (processQuery helpers st0 question sessionId env).2.cache.cache k =
          st0.cache.cache k) ∧
      ((processQuery helpers st0 question sessionId env).2.cache.cache
          (jsToLower (jsTrim question)) =
          st0.cache.cache (jsToLower (jsTrim question)) ∨
       (∃ e, st0.cache.cache (jsToLower (jsTrim question)) = some e ∧
          st0.cache.ttl < env.now - e.timestamp ∧
          (processQuery helpers st0 question sessionId env).2.cache.cache
            (jsToLower (jsTrim question)) = none)) := by
  intro helpers st0 question sessionId env hres
  rcases processQuery_cache_local helpers st0 question sessionId env with
    h | h | ⟨resp, hok, hne⟩
  · exact ⟨fun k _ => by rw [h], Or.inl (by rw [h])⟩
  · refine ⟨fun k hk => ?_, ?_⟩
    · rw [h]
      exact queryCacheGet_cache_other st0.cache _ env.now k hk
    · rcases queryCacheGet_cache_key st0.cache (jsToLower (jsTrim question))
        env.now with h2 | ⟨e, he, hexp, hnone⟩
      · exact Or.inl (by rw [h]; exact h2)
      · exact Or.inr ⟨e, he, hexp, by rw [h]; exact hnone⟩
  · exfalso
    rcases hres with ⟨msg, herr⟩ | ⟨resp2, hok2, hemp⟩
    · rw [hok] at herr
      exact Except.noConfusion herr
    · rw [hok] at hok2
      have hr : resp = resp2 := by injection hok2
      rw [hr, hemp] at hne
      exact hne rfl

/-- C10.  On every path through `processQuery` (greeting, cache hit,
normal, no-context and error paths alike): histories of sessions other
than the named one are unchanged, and if every session's history held at
most `2 * MAX_HISTORY_LENGTH = 10` entries before the call, the same bound
holds after it (the touched session is re-capped by the push/splice
idiom). -/
theorem C10_history_bounded :
    ∀ (helpers : TextHelpers) (st0 : ChatBotState) (question sessionId : String)
      (env : RequestEnv),
      (∀ s, s ≠ sessionId →
        (processQuery helpers st0 question sessionId env).2.history s =
          st0.history s) ∧
      ((∀ s lpre, st0.history s = some lpre →
          lpre.length ≤ MAX_HISTORY_LENGTH * 2) →
        ∀ s lpost,
          (processQuery helpers st0 question sessionId env).2.history s =
            some lpost →
          lpost.length ≤ MAX_HISTORY_LENGTH * 2) := by
  intro helpers st0 question sessionId env
  refine ⟨fun s hs => processQuery_history_other helpers st0 question sessionId
    env s hs, ?_⟩
  intro hpre s lpost hl
  by_cases hs : s = sessionId
  · subst hs
    rcases processQuery_history_named helpers st0 question s env lpost hl with
      h | h
    · cases hh : st0.history s with
      | none =>
        rw [hh] at h
        rw [h]
        simp
      | some l0 =>
        rw [hh] at h
        rw [h]
        exact hpre s l0 hh
    · exact h
  · rw [processQuery_history_other helpers st0 question sessionId env s hs] at hl
    exact hpre s lpost hl


/-- Witness for C10: a failing embedding call on a fresh state; the other
session's history is untouched and the named session's history is capped. -/
theorem C10_history_bounded_witness :
    (processQuery helpersW botW "q1" "s1" envFail).2.history "other" =
      botW.history "other" ∧
    (processQuery helpersW botW "q1" "s1" envFail).2.history "s1" =
      some (pushCapped [] ⟨"q1", errorMessageFor none⟩) ∧
    (pushCapped [] ⟨"q1", errorMessageFor none⟩).length ≤
      MAX_HISTORY_LENGTH * 2 := by
  have h := C10_history_bounded helpersW botW "q1" "s1" envFail
  have hcomp : (processQuery helpersW botW "q1" "s1" envFail).2.history "s1" =
      some (pushCapped [] ⟨"q1", errorMessageFor none⟩) := rfl
  refine ⟨h.1 "other" (by decide), hcomp, ?_⟩
  exact h.2 (fun s lpre hl => Option.noConfusion hl) "s1" _ hcomp


/-- Counterexample to C9 as stated: the run raises a provider error, yet
the cache is not left unchanged — the lookup evicts the expired `"q1"`
entry on the way. -/
theorem C9_cache_eviction_counterexample :
    botC.cache.cache "q1" = some { timestamp := 0, data := respD } ∧
    (processQuery helpersW botC "q1" "s1" envLate).1 =
      Except.error (errorMessageFor none) ∧
    (processQuery helpersW botC "q1" "s1" envLate).2.cache.cache "q1" = none := by
  refine ⟨rfl, rfl, rfl⟩

/-- Witness for the amended C9 at the same failing run: the unrelated key
`"zzz"` keeps its prior value, while the question key `"q1"` held an entry
whose age exceeded the TTL and is evicted. -/
theorem C9_cache_write_policy_witness :
    botC.cache.cache (jsToLower (jsTrim "q1")) =
      some { timestamp := 0, data := respD } ∧
    botC.cache.ttl < envLate.now - (0 : Nat) ∧
    (processQuery helpersW botC "q1" "s1" envLate).2.cache.cache "zzz" =
      botC.cache.cache "zzz" ∧
    (processQuery helpersW botC "q1" "s1" envLate).2.cache.cache
      (jsToLower (jsTrim "q1")) = none := by
  have h := C9_cache_write_policy helpersW botC "q1" "s1" envLate
    (Or.inl ⟨errorMessageFor none, rfl⟩)
  exact ⟨rfl, by decide, h.1 "zzz" (by decide), rfl⟩

end Chat
